import Mathlib

/-!
Turing-test backend: matchmaking and session lifecycle.

A shallow embedding of `src/Controllers/chatController.js` (the module that
`src/server.js` requires) and of its sibling copy `src/chatController.js`.

The process-wide variables `lobby`, `waitingQueue`, `activeGames` and `personas`
become fields of `State`.  Game objects are JavaScript objects that are shared by
reference between `activeGames` and the closures of suspended `handleMessage`
calls, so they live in an explicit `heap` and `activeGames` maps a session id to a
heap reference.  Pending `setTimeout` callbacks are the `timers` field.
Every handler returns the new state together with the events it emitted, each
event paired with the id of the socket it was sent to.
-/

namespace TuringTest

/-- The `socket.id` of a connection; only ever compared for equality. -/
abbrev SocketId := Nat

/-- The handle returned by `setTimeout`. -/
abbrev TimerId := Nat

/-- An index into the heap of game objects. -/
abbrev GameRef := Nat

/-- A lobby entry `{ socket, id: socket.id }`; the socket is represented by its id. -/
structure Participant where
  socket : SocketId
  id : SocketId
deriving DecidableEq, Repr

/-- The object literal `{ socket, id: socket.id }`. -/
def Participant.ofSocket (socket : SocketId) : Participant :=
  { socket := socket, id := socket }

/-- An entry of the persona catalog. -/
structure Persona where
  id : Nat
  name : String
  prompt : String
deriving DecidableEq, Repr

/-- An entry of `game.messages`. -/
structure Message where
  sender : String
  text : String
deriving DecidableEq, Repr

/-- A value of `activeGames`. `aiPersona = none` stands for `null` and for `undefined`. -/
structure Game where
  tester : Participant
  testedPerson : Option Participant
  isAI : Bool
  aiPersona : Option Persona
  messages : List Message
  chatCount : Nat
  timerId : TimerId
deriving DecidableEq, Repr

/-- The module-level `lobby` object. -/
structure Lobby where
  tester : Option Participant
  testedPerson : Option Participant
deriving DecidableEq, Repr

/-- The events the controller emits, with their payloads. -/
inductive Event where
  | matchFound (sessionId message role : String)
  | watchingGame (message sessionId : String)
  | waitingForPartner (message : String)
  | gameEnd (reason : String) (result : Option String) (isCorrect : Option Bool)
  | gameComplete (message : String)
  | newMessage (sender text : String)
  | error (message : String)
deriving DecidableEq, Repr

/-- One emission: the receiving socket and the event. -/
abbrev Emit := SocketId × Event

/-- The two copies of the controller in the repository. -/
inductive Copy where
  | controllers
  | root
deriving DecidableEq, Repr

/-- The module state. `timers` holds the armed timeouts, each with the session id its
callback passes to `handleTimerExpired`. -/
structure State where
  lobby : Lobby
  waitingQueue : List Participant
  heap : List Game
  activeGames : List (String × GameRef)
  timers : List (TimerId × String)
  nextTimer : TimerId
  personas : List Persona
deriving DecidableEq, Repr

/-- The state right after the module is loaded, with the catalog `personas`. -/
def State.init (personas : List Persona) : State :=
  { lobby := { tester := none, testedPerson := none }
    waitingQueue := []
    heap := []
    activeGames := []
    timers := []
    nextTimer := 0
    personas := personas }

/-- The assignment `activeGames[sessionId] = ref`. -/
def assignGame (m : List (String × GameRef)) (sessionId : String) (ref : GameRef) :
    List (String × GameRef) :=
  (sessionId, ref) :: m.filter (fun e => e.1 != sessionId)

/-- The statement `delete activeGames[sessionId]`. -/
def deleteGame (m : List (String × GameRef)) (sessionId : String) : List (String × GameRef) :=
  m.filter (fun e => e.1 != sessionId)

/-- The read `activeGames[sessionId]`, with the reference and the object it points to. -/
def lookupGame (s : State) (sessionId : String) : Option (GameRef × Game) :=
  match s.activeGames.lookup sessionId with
  | some ref =>
    match s.heap[ref]? with
    | some game => some (ref, game)
    | none => none
  | none => none

/-- The call `clearTimeout(timerId)`. -/
def clearTimeout (s : State) (timerId : TimerId) : State :=
  { s with timers := s.timers.filter (fun t => t.1 != timerId) }

/-- The fallback persona of `src/chatController.js`. -/
def defaultPersona : Persona :=
  { id := 1
    name := "Alex"
    prompt := "You are Alex, a software engineer. Keep responses short and casual." }

/-- The persona drawn for an AI pairing; `pick` is the value of
`Math.floor(Math.random() * personas.length)`. -/
def selectPersona (copy : Copy) (personas : List Persona) (pick : Nat) : Option Persona :=
  match copy with
  | Copy.controllers => personas[pick]?
  | Copy.root =>
    if personas.length > 0 then personas[pick]?
    else some defaultPersona

/-- The nondeterministic inputs of one pairing: the outcome of `Math.random() < 0.5`,
the persona index drawn, and the value of `Date.now()`. -/
structure Draw where
  isAI : Bool
  pick : Nat
  now : Nat
deriving DecidableEq, Repr

/-- The text of the `matchFound` notice. -/
def matchMessage : String :=
  "A partner has been found! You are speaking with an unknown entity."

/-- The slot update at the start of `handleJoinLobby`. -/
def fillSlot (s : State) (socket : SocketId) (role : String) : State :=
  if role = "tester" then
    { s with lobby := { s.lobby with tester := some (Participant.ofSocket socket) } }
  else
    match s.waitingQueue with
    | head :: rest =>
      { s with lobby := { s.lobby with testedPerson := some head }, waitingQueue := rest }
    | [] =>
      { s with lobby := { s.lobby with testedPerson := some (Participant.ofSocket socket) } }

/-- The second half of `handleJoinLobby`, after the slot update: the pairing when both
slots are occupied, the `waitingForPartner` notice otherwise. -/
def pairOrWait (copy : Copy) (s1 : State) (socket : SocketId) (d : Draw) :
    State × List Emit :=
  match s1.lobby.tester, s1.lobby.testedPerson with
  | some tester, some testedPerson =>
    let aiPersona := if d.isAI then selectPersona copy s1.personas d.pick else none
    let sessionId := toString d.now
    let gameTimer := s1.nextTimer
    let timers := s1.timers ++ [(gameTimer, sessionId)]
    if d.isAI then
      let game : Game :=
        { tester := tester, testedPerson := none, isAI := true, aiPersona := aiPersona
          messages := [], chatCount := 0, timerId := gameTimer }
      ({ s1 with
          lobby := { tester := none, testedPerson := none }
          waitingQueue := s1.waitingQueue ++ [testedPerson]
          heap := s1.heap ++ [game]
          activeGames := assignGame s1.activeGames sessionId s1.heap.length
          timers := timers
          nextTimer := gameTimer + 1 },
        [(tester.socket, Event.matchFound sessionId matchMessage "tester"),
         (testedPerson.socket, Event.watchingGame
            "The tester is currently playing with an AI. You are next in the queue!" sessionId)])
    else
      let game : Game :=
        { tester := tester, testedPerson := some testedPerson, isAI := false, aiPersona := none
          messages := [], chatCount := 0, timerId := gameTimer }
      ({ s1 with
          lobby := { tester := none, testedPerson := none }
          heap := s1.heap ++ [game]
          activeGames := assignGame s1.activeGames sessionId s1.heap.length
          timers := timers
          nextTimer := gameTimer + 1 },
        [(tester.socket, Event.matchFound sessionId matchMessage "tester"),
         (testedPerson.socket, Event.matchFound sessionId matchMessage "tested person")])
  | _, _ => (s1, [(socket, Event.waitingForPartner "Waiting for a partner to join...")])

/-- The function `handleJoinLobby`: the slot update followed by the pairing test. -/
def handleJoinLobby (copy : Copy) (s : State) (socket : SocketId) (role : String)
    (d : Draw) : State × List Emit :=
  pairOrWait copy (fillSlot s socket role) socket d

/-- The function `notifyWaitingPlayers`. -/
def notifyWaitingPlayers (s : State) : List Emit :=
  s.waitingQueue.map (fun player =>
    (player.socket, Event.gameComplete "A game has ended. Trying to find you a match..."))

/-- The function `handleTimerExpired`. -/
def handleTimerExpired (s : State) (sessionId : String) : State × List Emit :=
  match lookupGame s sessionId with
  | some (_, game) =>
    ({ s with activeGames := deleteGame s.activeGames sessionId },
      [(game.tester.socket, Event.gameEnd "timeout" none none)]
        ++ (match game.testedPerson with
            | some p => [(p.socket, Event.gameEnd "timeout" none none)]
            | none => [])
        ++ notifyWaitingPlayers s)
  | none => (s, [])

/-- The expiry of the armed timeout `timerId`: it leaves the armed set and its callback
runs `handleTimerExpired`. A handle that is not armed does nothing. -/
def timerFires (s : State) (timerId : TimerId) : State × List Emit :=
  match s.timers.find? (fun t => t.1 == timerId) with
  | some (_, sessionId) =>
    handleTimerExpired { s with timers := s.timers.filter (fun t => t.1 != timerId) } sessionId
  | none => (s, [])

/-- What the AI branch of `handleMessage` holds on to across its two `await`s. -/
structure Pending where
  socket : SocketId
  game : GameRef
  tester : Participant
  testedPerson : Option Participant
  aiPersona : Option Persona
deriving DecidableEq, Repr

/-- The outcome of the synchronous part of `handleMessage`: the state, the emissions,
the suspended AI branch if there is one, and whether the call threw. -/
structure Reaction where
  state : State
  emitted : List Emit
  pending : Option Pending
  threw : Bool
deriving DecidableEq, Repr

/-- The notice the tester receives when it may guess. -/
def readyTester : Event := Event.gameEnd "readyToGuess" (some "Time to make your guess!") none

/-- The notice the tested person receives when the tester may guess. -/
def readyTested : Event :=
  Event.gameEnd "readyToGuess" (some "The tester is making their guess...") none

/-- The call `game.messages.push({ sender, text })`. -/
def Game.push (game : Game) (sender text : String) : Game :=
  { game with messages := game.messages ++ [{ sender := sender, text := text }] }

/-- The function `handleMessage`, up to its first `await`. -/
def handleMessage (s : State) (socket : SocketId) (sessionId message : String) : Reaction :=
  match lookupGame s sessionId with
  | none =>
    { state := s
      emitted := [(socket, Event.error "Session not found. Please start a new session.")]
      pending := none, threw := false }
  | some (ref, game) =>
    let isTester : Bool := socket == game.tester.id
    let isTestedPerson : Bool :=
      match game.testedPerson with
      | some p => socket == p.id
      | none => false
    if isTestedPerson && game.messages.length == 0 then
      { state := s
        emitted := [(socket, Event.error "Please wait for the Tester to ask the first question.")]
        pending := none, threw := false }
    else
      let pushed : Game := game.push (if isTester then "tester" else "tested_person") message
      let s1 : State := { s with heap := s.heap.set ref pushed }
      if isTester then
        if game.isAI then
          { state := clearTimeout s1 pushed.timerId
            emitted := []
            pending := some
              { socket := socket, game := ref, tester := game.tester
                testedPerson := game.testedPerson, aiPersona := game.aiPersona }
            threw := false }
        else
          match game.testedPerson with
          | some p =>
            { state := s1
              emitted := [(p.socket, Event.newMessage "tested_person" message)]
              pending := none, threw := false }
          | none => { state := s1, emitted := [], pending := none, threw := true }
      else if isTestedPerson then
        match game.testedPerson with
        | some p =>
          { state := clearTimeout s1 pushed.timerId
            emitted :=
              [(game.tester.socket, Event.newMessage "tested_person" message),
               (game.tester.socket, readyTester),
               (p.socket, readyTested)]
            pending := none, threw := false }
        | none => { state := s1, emitted := [], pending := none, threw := false }
      else
        { state := s1
          emitted := [(socket, Event.error "You are not part of this game session.")]
          pending := none, threw := false }

/-- One element of the `contents` array sent to the generation service. -/
structure Content where
  role : String
  text : String
deriving DecidableEq, Repr

/-- The request passed to `model.generateContent`. -/
structure Request where
  contents : List Content
  maxOutputTokens : Nat
deriving DecidableEq, Repr

/-- The construction of the request from the persona and the log; `none` when the
code throws a `TypeError` (no persona, or no first message). -/
def buildRequest (aiPersona : Option Persona) (messages : List Message) : Option Request :=
  match aiPersona, messages with
  | some persona, firstMessage :: rest =>
    some
      { contents :=
          { role := "user", text := persona.prompt ++ "\n\n" ++ firstMessage.text } ::
            rest.map (fun msg =>
              { role := if msg.sender = "tester" then "user" else "model", text := msg.text })
        maxOutputTokens := 200 }
  | _, _ => none

/-- The notice of the `catch` block of `handleMessage`. -/
def technicalDifficulties (k : Pending) : List Emit :=
  [(k.socket,
    Event.error "I am currently experiencing technical difficulties. Please try again later.")]

/-- The AI branch resumed after `await sleep(randomDelay)`: it builds the request from
the log of the captured game object. The result is the request to send, or the
emissions of the `catch` block when building it threw. -/
def resumeAfterDelay (s : State) (k : Pending) : Request ⊕ List Emit :=
  match s.heap[k.game]? with
  | some game =>
    match buildRequest k.aiPersona game.messages with
    | some request => Sum.inl request
    | none => Sum.inr (technicalDifficulties k)
  | none => Sum.inr (technicalDifficulties k)

/-- The AI branch resumed after `await model.generateContent(...)`; `result` is the text
of the response, or `none` when the call failed. -/
def resumeAfterGeneration (s : State) (k : Pending) (result : Option String) :
    State × List Emit :=
  match result with
  | some aiResponse =>
    match s.heap[k.game]? with
    | some game =>
      ({ s with heap := s.heap.set k.game (game.push "ai" aiResponse) },
        [(k.socket, Event.newMessage "ai" aiResponse), (k.tester.socket, readyTester)]
          ++ (match k.testedPerson with
              | some p => [(p.socket, readyTested)]
              | none => []))
    | none => (s, technicalDifficulties k)
  | none => (s, technicalDifficulties k)

/-- The comparison that `handleGuess` stores in `isCorrect`. -/
def isCorrect (guess : String) (isAI : Bool) : Bool :=
  (guess == "AI" && isAI) || (guess == "human" && !isAI)

/-- The function `handleGuess`. -/
def handleGuess (s : State) (socket : SocketId) (sessionId guess : String) :
    State × List Emit :=
  match lookupGame s sessionId with
  | none => (s, [(socket, Event.error "Session not found. Please start a new session.")])
  | some (_, game) =>
    let s1 := clearTimeout s game.timerId
    let isTester : Bool := socket == game.tester.id
    if !isTester then
      (s1, [(socket, Event.error "Only the Tester can make a guess.")])
    else
      let correct := isCorrect guess game.isAI
      let nature := if game.isAI then "an AI" else "a Person"
      let testerMessage :=
        if correct then "Great job! The user was " ++ nature ++ "!"
        else "Nice try! The user was actually " ++ nature ++ "."
      let testedPersonMessage :=
        "The tester guessed " ++ (if correct then "correctly" else "incorrectly") ++ "!"
      ({ s1 with activeGames := deleteGame s1.activeGames sessionId },
        [(game.tester.socket, Event.gameEnd "guess" (some testerMessage) (some correct))]
          ++ (match game.testedPerson with
              | some p =>
                [(p.socket, Event.gameEnd "guess" (some testedPersonMessage) (some correct))]
              | none => [])
          ++ notifyWaitingPlayers s1)

/-- The `disconnect` listener of a socket. -/
def handleDisconnect (s : State) (socket : SocketId) : State :=
  let tester :=
    match s.lobby.tester with
    | some t => if t.socket = socket then none else some t
    | none => none
  let testedPerson :=
    match s.lobby.testedPerson with
    | some p => if p.socket = socket then none else some p
    | none => none
  { s with
    lobby := { tester := tester, testedPerson := testedPerson }
    waitingQueue :=
      match s.waitingQueue.findIdx? (fun player => player.socket == socket) with
      | some queueIndex => s.waitingQueue.eraseIdx queueIndex
      | none => s.waitingQueue }

/-- The participant ids that a game object refers to. -/
def Game.participantIds (g : Game) : List SocketId :=
  g.tester.id ::
    (match g.testedPerson with
     | some p => [p.id]
     | none => [])

/-- The ids in the tester and testedPerson fields of all registered sessions. -/
def sessionIds (heap : List Game) (activeGames : List (String × GameRef)) : List SocketId :=
  activeGames.flatMap (fun e =>
    match heap[e.2]? with
    | some g => g.participantIds
    | none => [])

/-- The ids held by the two lobby slots. -/
def Lobby.participantIds (l : Lobby) : List SocketId :=
  (match l.tester with
   | some t => [t.id]
   | none => []) ++
  (match l.testedPerson with
   | some p => [p.id]
   | none => [])

/-- Every participant id held by the lobby slots, the waiting queue and the sessions,
with multiplicity. -/
def State.participantIds (s : State) : List SocketId :=
  s.lobby.participantIds ++ s.waitingQueue.map (fun p => p.id) ++
    sessionIds s.heap s.activeGames

/-- One `joinLobby` (or `newGame`) event with the random draws of its pairing. -/
structure Join where
  socket : SocketId
  role : String
  draw : Draw
deriving DecidableEq, Repr

/-- The state after a sequence of `joinLobby` events. -/
def runJoins (copy : Copy) (s : State) : List Join → State
  | [] => s
  | j :: js => runJoins copy (handleJoinLobby copy s j.socket j.role j.draw).1 js

/-- No event of the sequence comes from a connection that is, at that moment, already
held by a lobby slot, the waiting queue or a session. -/
def NoRejoin (copy : Copy) (s : State) : List Join → Prop
  | [] => True
  | j :: js =>
    j.socket ∉ s.participantIds ∧
      NoRejoin copy (handleJoinLobby copy s j.socket j.role j.draw).1 js

/-- Every reference stored in `activeGames` points into the heap. -/
def State.RefsValid (s : State) : Prop :=
  ∀ e ∈ s.activeGames, e.2 < s.heap.length

/-- A suspended AI branch of `handleMessage`: asleep in `sleep(randomDelay)`, or waiting
for `model.generateContent` with the request it sent. -/
inductive Suspended where
  | sleeping (k : Pending)
  | generating (k : Pending) (request : Request)
deriving DecidableEq, Repr

/-- The module state together with the suspended AI branches. -/
structure World where
  state : State
  suspended : List Suspended
deriving DecidableEq, Repr

/-- The world right after the module is loaded. -/
def World.init (personas : List Persona) : World :=
  { state := State.init personas, suspended := [] }

/-- The events the event loop reacts to: the four socket events, the expiry of a timer,
and the two resumptions of a suspended AI branch (chosen by its position). -/
inductive Input where
  | joinLobby (socket : SocketId) (role : String) (draw : Draw)
  | sendMessage (socket : SocketId) (sessionId message : String)
  | makeGuess (socket : SocketId) (sessionId guess : String)
  | disconnect (socket : SocketId)
  | timerExpires (timerId : TimerId)
  | delayElapsed (index : Nat)
  | generationDone (index : Nat) (result : Option String)
deriving DecidableEq, Repr

/-- One reaction of the event loop. -/
def step (copy : Copy) (w : World) : Input → World × List Emit
  | Input.joinLobby socket role draw =>
    let r := handleJoinLobby copy w.state socket role draw
    ({ w with state := r.1 }, r.2)
  | Input.sendMessage socket sessionId message =>
    let r := handleMessage w.state socket sessionId message
    ({ state := r.state
       suspended := w.suspended ++
         (match r.pending with
          | some k => [Suspended.sleeping k]
          | none => []) },
      r.emitted)
  | Input.makeGuess socket sessionId guess =>
    let r := handleGuess w.state socket sessionId guess
    ({ w with state := r.1 }, r.2)
  | Input.disconnect socket => ({ w with state := handleDisconnect w.state socket }, [])
  | Input.timerExpires timerId =>
    let r := timerFires w.state timerId
    ({ w with state := r.1 }, r.2)
  | Input.delayElapsed index =>
    match w.suspended[index]? with
    | some (Suspended.sleeping k) =>
      match resumeAfterDelay w.state k with
      | Sum.inl request =>
        ({ w with suspended := w.suspended.set index (Suspended.generating k request) }, [])
      | Sum.inr emitted => ({ w with suspended := w.suspended.eraseIdx index }, emitted)
    | _ => (w, [])
  | Input.generationDone index result =>
    match w.suspended[index]? with
    | some (Suspended.generating k _) =>
      let r := resumeAfterGeneration w.state k result
      ({ state := r.1, suspended := w.suspended.eraseIdx index }, r.2)
    | _ => (w, [])

/-- The world after a sequence of events. -/
def run (copy : Copy) (w : World) : List Input → World
  | [] => w
  | i :: rest => run copy (step copy w i).1 rest

/-- The worlds that some sequence of events leads to from the initial one. -/
def Reachable (copy : Copy) (personas : List Persona) (w : World) : Prop :=
  ∃ inputs : List Input, run copy (World.init personas) inputs = w

/-- The events of the `joinLobby` outcome row: `matchFound`, `waitingForPartner` and
`watchingGame`. -/
def Event.isJoinNotice : Event → Bool
  | Event.matchFound _ _ _ => true
  | Event.waitingForPartner _ => true
  | Event.watchingGame _ _ => true
  | _ => false

/-- Exactly one of: `testedPerson` is present, `isAI` is true. -/
def Game.Consistent (g : Game) : Prop :=
  g.testedPerson.isSome = !g.isAI

/-- The invariant of the reachable worlds: the registry points into the heap, every game
object is consistent, and the two lobby slots are never both occupied. -/
def State.Inv (s : State) : Prop :=
  s.RefsValid ∧ (∀ g ∈ s.heap, g.Consistent) ∧
    (s.lobby.tester = none ∨ s.lobby.testedPerson = none)

/-! ## Concrete states used by the examples -/

/-- A catalog with one persona. -/
def jake : Persona := { id := 1, name := "Jake", prompt := "You are Jake." }

/-- Socket 1 joins as tester, then socket 2 as tested person; the coin gives a human
pairing at clock value 5. -/
def humanJoins : List Join :=
  [{ socket := 1, role := "tester", draw := { isAI := false, pick := 0, now := 5 } },
   { socket := 2, role := "testedPerson", draw := { isAI := false, pick := 0, now := 5 } }]

/-- The same two joins with the coin giving an AI pairing. -/
def aiJoins : List Join :=
  [{ socket := 1, role := "tester", draw := { isAI := true, pick := 0, now := 5 } },
   { socket := 2, role := "testedPerson", draw := { isAI := true, pick := 0, now := 5 } }]

/-- The game object of a human session between tester 1 and tested person 2. -/
def humanGame : Game :=
  { tester := Participant.ofSocket 1, testedPerson := some (Participant.ofSocket 2)
    isAI := false, aiPersona := none, messages := [], chatCount := 0, timerId := 0 }

/-- The state after `humanJoins`. -/
def humanSession : State :=
  runJoins Copy.controllers (State.init [jake]) humanJoins

/-- The game object of an AI session of tester 1 with persona `jake`. -/
def aiGame : Game :=
  { tester := Participant.ofSocket 1, testedPerson := none
    isAI := true, aiPersona := some jake, messages := [], chatCount := 0, timerId := 0 }

/-- The state after `aiJoins`. -/
def aiSession : State :=
  runJoins Copy.controllers (State.init [jake]) aiJoins

/-- The human session after its tester sent "hi". -/
def humanAfterHi : State :=
  (handleMessage humanSession 1 "5" "hi").state

/-- The human game object after the tester sent "hi". -/
def humanGameHi : Game :=
  humanGame.push "tester" "hi"

/-- The AI session after its tester sent "hi", the AI branch being suspended. -/
def aiAfterHi : State :=
  (handleMessage aiSession 1 "5" "hi").state

/-- The suspended AI branch of the tester's "hi" in `aiSession`. -/
def pendingHi : Pending :=
  { socket := 1, game := 0, tester := Participant.ofSocket 1, testedPerson := none
    aiPersona := some jake }

/-- The state after the tester of `aiAfterHi` guessed while the AI branch was suspended. -/
def aiGuessedMeanwhile : State :=
  (handleGuess aiAfterHi 1 "5" "AI").1


/-- The AI session with socket 3 waiting in the tester slot and socket 2 in the queue. -/
def testerWaiting : State :=
  (handleJoinLobby Copy.controllers aiSession 3 "tester" { isAI := false, pick := 0, now := 6 }).1

/-- The events that lead to `humanSession`. -/
def humanInputs : List Input :=
  [Input.joinLobby 1 "tester" { isAI := false, pick := 0, now := 5 },
   Input.joinLobby 2 "testedPerson" { isAI := false, pick := 0, now := 5 }]

/-- The human session with socket 3 waiting in the tester slot. -/
def humanTesterWaiting : State :=
  (handleJoinLobby Copy.controllers humanSession 3 "tester"
    { isAI := false, pick := 0, now := 5 }).1

/-- Socket 1 joins as tester and then as tested person; the coin gives a human pairing. -/
def selfJoins : List Join :=
  [{ socket := 1, role := "tester", draw := { isAI := false, pick := 0, now := 5 } },
   { socket := 1, role := "testedPerson", draw := { isAI := false, pick := 0, now := 5 } }]

/-- The session of socket 1 with itself, after socket 3 sent "x" on it. -/
def selfPairedLogged : State :=
  (handleMessage (runJoins Copy.controllers (State.init [jake]) selfJoins) 3 "5" "x").state

/-- The human session after socket 3, which takes no part in it, sent "x" on it. -/
def humanAfterStranger : State :=
  (handleMessage humanSession 3 "5" "x").state

/-- Whether an event is a `joinLobby` whose pairing, if it makes one, allocates the
session id `sessionId`. -/
def Input.mayAllocate (sessionId : String) : Input → Bool
  | Input.joinLobby _ _ draw => toString draw.now == sessionId
  | _ => false


/-- The queue invariant of the reachable worlds: the waiting queue holds at most one
participant and is empty whenever the tested-person slot is occupied. -/
def State.QueueInv (s : State) : Prop :=
  s.waitingQueue.length ≤ 1 ∧ (s.lobby.testedPerson ≠ none → s.waitingQueue = [])

/-- The participants that one event takes from the head of the waiting queue with
`waitingQueue.shift()`. -/
def dequeuedBy (s : State) : Input → List Participant
  | Input.joinLobby _ role _ => if role = "tester" then [] else s.waitingQueue.take 1
  | _ => []

/-- The participants that one event appends with `waitingQueue.push(...)`. -/
def enqueuedBy (s : State) : Input → List Participant
  | Input.joinLobby socket role draw =>
    match (fillSlot s socket role).lobby.tester, (fillSlot s socket role).lobby.testedPerson with
    | some _, some testedPerson => if draw.isAI then [testedPerson] else []
    | _, _ => []
  | _ => []

/-- The participants dequeued along a sequence of events, in the order they left. -/
def dequeues (copy : Copy) (w : World) : List Input → List Participant
  | [] => []
  | i :: rest => dequeuedBy w.state i ++ dequeues copy (step copy w i).1 rest

/-- The participants enqueued along a sequence of events, in the order they entered. -/
def enqueues (copy : Copy) (w : World) : List Input → List Participant
  | [] => []
  | i :: rest => enqueuedBy w.state i ++ enqueues copy (step copy w i).1 rest

/-- The events that lead to `aiSession`. -/
def aiInputs : List Input :=
  [Input.joinLobby 1 "tester" { isAI := true, pick := 0, now := 5 },
   Input.joinLobby 2 "testedPerson" { isAI := true, pick := 0, now := 5 }]

/-- Tester 1 is paired with the AI, displacing 2; tester 3 joins, tested person 4 joins
and the queue head 2 is paired with the AI again; tester 5 joins, tested person 6 joins
and 2 is dequeued into a human pairing. -/
def queueInputs : List Input :=
  aiInputs ++
    [Input.joinLobby 3 "tester" { isAI := true, pick := 0, now := 6 },
     Input.joinLobby 4 "testedPerson" { isAI := true, pick := 0, now := 6 },
     Input.joinLobby 5 "tester" { isAI := false, pick := 0, now := 7 },
     Input.joinLobby 6 "testedPerson" { isAI := false, pick := 0, now := 7 }]

/-- The role the request gives to a log entry other than the first: 'user' for a
'tester' entry, 'model' for any other. -/
def turnRole (msg : Message) : String :=
  if msg.sender = "tester" then "user" else "model"

/-- A sequence of roles that alternates strictly between 'user' and 'model', starting and
ending with 'user'. -/
def alternates : List String → Bool
  | [] => false
  | [r] => r == "user"
  | r1 :: r2 :: rest => r1 == "user" && r2 == "model" && alternates rest

/-- A log that alternates between 'tester' entries and entries of any other sender,
starting and ending with a 'tester' entry. -/
def cadenced : List Message → Bool
  | [] => false
  | [m] => m.sender == "tester"
  | m1 :: m2 :: rest => m1.sender == "tester" && m2.sender != "tester" && cadenced rest

/-- The roles of the turns of the request that the resumed AI branch builds, if it
builds one. -/
def requestRoles (s : State) (k : Pending) : Option (List String) :=
  match resumeAfterDelay s k with
  | Sum.inl request => some (request.contents.map (fun c => c.role))
  | Sum.inr _ => none

/-- The events of the AI session in which the tester's "hi" meets a generation failure
and the tester then sends "again". -/
def retryInputs : List Input :=
  aiInputs ++
    [Input.sendMessage 1 "5" "hi", Input.delayElapsed 0, Input.generationDone 0 none,
     Input.sendMessage 1 "5" "again"]

/-- The events of the AI session in which the tester sends "again" while "hi" still
awaits its response. -/
def overlapInputs : List Input :=
  aiInputs ++ [Input.sendMessage 1 "5" "hi", Input.sendMessage 1 "5" "again"]

/-- The AI session after the tester sent "hi" and then "again" without a response in
between. -/
def aiAfterAgain : State :=
  (handleMessage aiAfterHi 1 "5" "again").state

/-- The `makeGuess` listener: it destructures the payload and calls `handleGuess`. A
payload without `guess` passes `undefined`, which `handleGuess` only compares with 'AI'
and 'human' and prints; it is passed on as the text it prints as. -/
def onMakeGuess (s : State) (socket : SocketId) (sessionId : String)
    (guess : Option String) : State × List Emit :=
  handleGuess s socket sessionId (guess.getD "undefined")

/-! ## Participants stay distinct along join sequences -/

theorem count_sessionIds_filter_le (a : SocketId) (heap : List Game)
    (p : String × GameRef → Bool) (m : List (String × GameRef)) :
    (sessionIds heap (m.filter p)).count a ≤ (sessionIds heap m).count a := by
  induction m with
  | nil => simp
  | cons e m ih =>
    by_cases hp : p e = true
    · simp only [List.filter_cons_of_pos hp, sessionIds, List.flatMap_cons, List.count_append]
      simp only [sessionIds] at ih
      omega
    · simp only [List.filter_cons_of_neg hp, sessionIds, List.flatMap_cons, List.count_append]
      simp only [sessionIds] at ih
      omega

theorem sessionIds_heap_append (heap : List Game) (g : Game) (m : List (String × GameRef))
    (hm : ∀ e ∈ m, e.2 < heap.length) :
    sessionIds (heap ++ [g]) m = sessionIds heap m := by
  induction m with
  | nil => rfl
  | cons e m ih =>
    have he : e.2 < heap.length := hm e (List.mem_cons_self _ _)
    have ih2 := ih (fun x hx => hm x (List.mem_cons_of_mem _ hx))
    simp only [sessionIds, List.flatMap_cons] at ih2 ⊢
    rw [ih2, List.getElem?_append_left he]

theorem fillSlot_count_le (a : SocketId) (s : State) (socket : SocketId) (role : String) :
    (fillSlot s socket role).participantIds.count a ≤ (socket :: s.participantIds).count a := by
  unfold fillSlot
  split
  · cases ht : s.lobby.tester <;> cases hp : s.lobby.testedPerson <;>
      simp [State.participantIds, Lobby.participantIds, ht, hp, Participant.ofSocket,
        List.count_cons]
  · split
    · rename_i head rest hq
      cases ht : s.lobby.tester <;> cases hp : s.lobby.testedPerson <;>
        simp [State.participantIds, Lobby.participantIds, ht, hp, hq, List.count_cons] <;> omega
    · rename_i hq
      cases ht : s.lobby.tester <;> cases hp : s.lobby.testedPerson <;>
        simp [State.participantIds, Lobby.participantIds, ht, hp, hq, Participant.ofSocket,
          List.count_cons] <;> omega

theorem sessionIds_assignGame (heap : List Game) (g : Game) (m : List (String × GameRef))
    (sessionId : String) (hm : ∀ e ∈ m, e.2 < heap.length) :
    sessionIds (heap ++ [g]) (assignGame m sessionId heap.length) =
      g.participantIds ++ sessionIds heap (m.filter (fun e => e.1 != sessionId)) := by
  have hf : ∀ e ∈ m.filter (fun e => e.1 != sessionId), e.2 < heap.length :=
    fun e he => hm e (List.mem_of_mem_filter he)
  have h := sessionIds_heap_append heap g _ hf
  simp only [sessionIds, assignGame, List.flatMap_cons] at h ⊢
  rw [h]
  simp

theorem fillSlot_heap (s : State) (socket : SocketId) (role : String) :
    (fillSlot s socket role).heap = s.heap := by
  unfold fillSlot
  split
  · rfl
  · split <;> rfl

theorem fillSlot_activeGames (s : State) (socket : SocketId) (role : String) :
    (fillSlot s socket role).activeGames = s.activeGames := by
  unfold fillSlot
  split
  · rfl
  · split <;> rfl

theorem pairOrWait_refsValid (copy : Copy) (s1 : State) (socket : SocketId) (d : Draw)
    (hv1 : s1.RefsValid) : (pairOrWait copy s1 socket d).1.RefsValid := by
  have key : ∀ (g : Game) (sid : String),
      ∀ e ∈ assignGame s1.activeGames sid s1.heap.length, e.2 < (s1.heap ++ [g]).length := by
    intro g sid e he
    simp only [assignGame, List.mem_cons] at he
    rw [List.length_append, List.length_singleton]
    rcases he with rfl | he
    · exact Nat.lt_succ_self _
    · exact Nat.lt_succ_of_lt (hv1 e (List.mem_of_mem_filter he))
  unfold pairOrWait
  split
  · split
    · exact key _ _
    · exact key _ _
  · exact hv1

theorem handleJoinLobby_refsValid (copy : Copy) (s : State) (socket : SocketId)
    (role : String) (d : Draw) (hv : s.RefsValid) :
    (handleJoinLobby copy s socket role d).1.RefsValid := by
  apply pairOrWait_refsValid
  intro e he
  rw [fillSlot_heap]
  rw [fillSlot_activeGames] at he
  exact hv e he

theorem pairOrWait_count_le (a : SocketId) (copy : Copy) (s1 : State) (socket : SocketId)
    (d : Draw) (hv1 : s1.RefsValid) :
    (pairOrWait copy s1 socket d).1.participantIds.count a ≤ s1.participantIds.count a := by
  unfold pairOrWait
  split
  · rename_i tester testedPerson ht hp
    have hle := count_sessionIds_filter_le a s1.heap (fun e => e.1 != toString d.now)
      s1.activeGames
    split
    · simp only [State.participantIds, Lobby.participantIds, ht, hp,
        sessionIds_assignGame _ _ _ _ hv1, Game.participantIds, List.count_append,
        List.map_append, List.map_cons, List.map_nil, List.count_cons, List.count_nil,
        List.nil_append]
      omega
    · simp only [State.participantIds, Lobby.participantIds, ht, hp,
        sessionIds_assignGame _ _ _ _ hv1, Game.participantIds, List.count_append,
        List.map_append, List.map_cons, List.map_nil, List.count_cons, List.count_nil,
        List.nil_append]
      omega
  · exact Nat.le_refl _

theorem handleJoinLobby_count_le (a : SocketId) (copy : Copy) (s : State)
    (socket : SocketId) (role : String) (d : Draw) (hv : s.RefsValid) :
    (handleJoinLobby copy s socket role d).1.participantIds.count a ≤
      (socket :: s.participantIds).count a := by
  have hv1 : (fillSlot s socket role).RefsValid := by
    intro e he
    rw [fillSlot_heap]
    rw [fillSlot_activeGames] at he
    exact hv e he
  exact Nat.le_trans (pairOrWait_count_le a copy _ socket d hv1)
    (fillSlot_count_le a s socket role)

theorem handleJoinLobby_nodup (copy : Copy) (s : State) (socket : SocketId)
    (role : String) (d : Draw) (hv : s.RefsValid) (hn : s.participantIds.Nodup)
    (hfresh : socket ∉ s.participantIds) :
    (handleJoinLobby copy s socket role d).1.participantIds.Nodup := by
  rw [List.nodup_iff_count_le_one]
  intro a
  have h1 := handleJoinLobby_count_le a copy s socket role d hv
  have h2 : (socket :: s.participantIds).Nodup := List.nodup_cons.mpr ⟨hfresh, hn⟩
  exact Nat.le_trans h1 (List.nodup_iff_count_le_one.mp h2 a)

theorem runJoins_nodup (copy : Copy) (js : List Join) :
    ∀ (s : State), s.RefsValid → s.participantIds.Nodup → NoRejoin copy s js →
      ∀ n, (runJoins copy s (js.take n)).participantIds.Nodup := by
  induction js with
  | nil =>
    intro s _ hn _ n
    simpa [runJoins] using hn
  | cons j js ih =>
    intro s hv hn hj n
    cases n with
    | zero => simpa [runJoins] using hn
    | succ n =>
      simp only [List.take_succ_cons, runJoins]
      exact ih _ (handleJoinLobby_refsValid copy s j.socket j.role j.draw hv)
        (handleJoinLobby_nodup copy s j.socket j.role j.draw hv hn hj.1) hj.2 n

/-- C2 (as stated, refuted): socket 1 joins as tester and then as tested person; the
human pairing registers a session whose tester and testedPerson are both socket 1. -/
theorem rejoin_duplicates_participant :
    ¬ (runJoins Copy.controllers (State.init [])
        [{ socket := 1, role := "tester", draw := { isAI := false, pick := 0, now := 5 } },
         { socket := 1, role := "testedPerson",
           draw := { isAI := false, pick := 0, now := 5 } }]).participantIds.Nodup := by
  decide

/-- C2 (amended): from the initial state, along any sequence of `joinLobby` events in
which no connection joins while a lobby slot, the waiting queue or a session already
holds it, after every step no participant id occurs twice across the lobby slots, the
waiting queue and the sessions. -/
theorem joins_without_rejoin_keep_ids_distinct (copy : Copy) (personas : List Persona)
    (js : List Join) (hjs : NoRejoin copy (State.init personas) js) (n : Nat) :
    (runJoins copy (State.init personas) (js.take n)).participantIds.Nodup := by
  apply runJoins_nodup copy js (State.init personas) _ _ hjs n
  · intro e he
    simp [State.init] at he
  · simp [State.init, State.participantIds, Lobby.participantIds, sessionIds]

/-- Witness for C2 (amended): sockets 1 and 2 join once each and are paired. -/
theorem joins_without_rejoin_keep_ids_distinct_witness :
    NoRejoin Copy.controllers (State.init [jake]) humanJoins ∧
    (runJoins Copy.controllers (State.init [jake])
      (humanJoins.take 2)).participantIds.Nodup :=
  ⟨⟨by decide, by decide, trivial⟩,
    joins_without_rejoin_keep_ids_distinct Copy.controllers [jake] humanJoins
      ⟨by decide, by decide, trivial⟩ 2⟩

/-! ## Guess resolution -/

theorem handleGuess_by_tester (s : State) (sessionId guess : String) (ref : GameRef)
    (game : Game) (hgame : lookupGame s sessionId = some (ref, game)) :
    handleGuess s game.tester.id sessionId guess =
      ({ clearTimeout s game.timerId with
          activeGames := deleteGame s.activeGames sessionId },
        [(game.tester.socket, Event.gameEnd "guess"
            (some (if isCorrect guess game.isAI
              then "Great job! The user was " ++ (if game.isAI then "an AI" else "a Person") ++ "!"
              else "Nice try! The user was actually " ++
                (if game.isAI then "an AI" else "a Person") ++ "."))
            (some (isCorrect guess game.isAI)))]
          ++ (match game.testedPerson with
              | some p =>
                [(p.socket, Event.gameEnd "guess"
                  (some ("The tester guessed " ++
                    (if isCorrect guess game.isAI then "correctly" else "incorrectly") ++ "!"))
                  (some (isCorrect guess game.isAI)))]
              | none => [])
          ++ notifyWaitingPlayers s) := by
  simp [handleGuess, hgame, clearTimeout, notifyWaitingPlayers]

/-- C1: for a registered session and a guess that is 'AI' or 'human', the value
`isCorrect` that `handleGuess` computes for the tester equals `(guess == 'AI') == isAI`;
the first emission is the tester's `gameEnd` carrying it, every `gameEnd` emitted by the
call carries it, and the four rows of the truth table hold. -/
theorem handleGuess_isCorrect_truth_table (s : State) (sessionId guess : String)
    (ref : GameRef) (game : Game) (hgame : lookupGame s sessionId = some (ref, game))
    (hguess : guess = "AI" ∨ guess = "human") :
    isCorrect guess game.isAI = ((guess == "AI") == game.isAI) ∧
    (∃ result, (handleGuess s game.tester.id sessionId guess).2.head? =
      some (game.tester.socket,
        Event.gameEnd "guess" (some result) (some ((guess == "AI") == game.isAI)))) ∧
    (∀ e ∈ (handleGuess s game.tester.id sessionId guess).2,
      ∀ reason result c, e.2 = Event.gameEnd reason result c →
        c = some ((guess == "AI") == game.isAI)) ∧
    (isCorrect "AI" true = true ∧ isCorrect "AI" false = false ∧
      isCorrect "human" true = false ∧ isCorrect "human" false = true) := by
  have hc : isCorrect guess game.isAI = ((guess == "AI") == game.isAI) := by
    rcases hguess with rfl | rfl <;> cases game.isAI <;> decide
  refine ⟨hc, ?_, ?_, by decide⟩
  · rw [handleGuess_by_tester s sessionId guess ref game hgame, ← hc]
    exact ⟨_, rfl⟩
  · rw [handleGuess_by_tester s sessionId guess ref game hgame, ← hc]
    intro e he reason result c hev
    simp only [List.mem_append, List.mem_singleton, notifyWaitingPlayers, List.mem_map] at he
    rcases he with (rfl | he) | ⟨p, _, rfl⟩
    · simp at hev; exact hev.2.2.symm
    · cases htp : game.testedPerson with
      | none => simp [htp] at he
      | some p =>
        simp [htp] at he
        subst he
        simp at hev
        exact hev.2.2.symm
    · simp at hev

/-- Witness for C1: a human session with tester 1 and tested person 2, guess 'human'. -/
theorem handleGuess_isCorrect_truth_table_witness :
    lookupGame humanSession "5" = some (0, humanGame) ∧
    isCorrect "human" humanGame.isAI = (("human" == "AI") == humanGame.isAI) ∧
    (∃ result, (handleGuess humanSession humanGame.tester.id "5" "human").2.head? =
      some (humanGame.tester.socket,
        Event.gameEnd "guess" (some result) (some (("human" == "AI") == humanGame.isAI)))) ∧
    (∀ e ∈ (handleGuess humanSession humanGame.tester.id "5" "human").2,
      ∀ reason result c, e.2 = Event.gameEnd reason result c →
        c = some (("human" == "AI") == humanGame.isAI)) ∧
    (isCorrect "AI" true = true ∧ isCorrect "AI" false = false ∧
      isCorrect "human" true = false ∧ isCorrect "human" false = true) :=
  ⟨by decide,
    handleGuess_isCorrect_truth_table humanSession "5" "human" 0 humanGame (by decide)
      (Or.inr rfl)⟩

/-! ## Message handling and the inactivity timer -/

theorem find?_filter_ne (l : List (TimerId × String)) (timerId : TimerId) :
    (l.filter (fun t => t.1 != timerId)).find? (fun t => t.1 == timerId) = none := by
  induction l with
  | nil => rfl
  | cons t l ih =>
    by_cases h : t.1 = timerId
    · simp [List.filter_cons, h, ih]
    · simp [List.filter_cons, h, List.find?_cons, ih]

theorem timerFires_cleared (s : State) (timerId : TimerId) :
    timerFires (clearTimeout s timerId) timerId = (clearTimeout s timerId, []) := by
  simp only [timerFires, clearTimeout, find?_filter_ne]

theorem handleMessage_testedPerson (s : State) (sessionId text : String) (ref : GameRef)
    (game : Game) (p : Participant) (hgame : lookupGame s sessionId = some (ref, game))
    (hp : game.testedPerson = some p) (hne : p.id ≠ game.tester.id)
    (hlog : game.messages ≠ []) :
    handleMessage s p.id sessionId text =
      { state := clearTimeout
          { s with heap := s.heap.set ref (game.push "tested_person" text) } game.timerId
        emitted :=
          [(game.tester.socket, Event.newMessage "tested_person" text),
           (game.tester.socket, readyTester), (p.socket, readyTested)]
        pending := none, threw := false } := by
  simp [handleMessage, hgame, hp, hne, hlog, Game.push]

theorem handleMessage_tester_ai (s : State) (sessionId text : String) (ref : GameRef)
    (game : Game) (hgame : lookupGame s sessionId = some (ref, game))
    (hai : game.isAI = true) (hp : game.testedPerson = none) :
    handleMessage s game.tester.id sessionId text =
      { state := clearTimeout
          { s with heap := s.heap.set ref (game.push "tester" text) } game.timerId
        emitted := []
        pending := some
          { socket := game.tester.id, game := ref, tester := game.tester
            testedPerson := none, aiPersona := game.aiPersona }
        threw := false } := by
  simp [handleMessage, hgame, hp, hai, Game.push]

theorem resumeAfterGeneration_timers (s : State) (k : Pending) (result : Option String) :
    (resumeAfterGeneration s k result).1.timers = s.timers ∧
    (resumeAfterGeneration s k result).1.nextTimer = s.nextTimer := by
  unfold resumeAfterGeneration
  split
  · split <;> exact ⟨rfl, rfl⟩
  · exact ⟨rfl, rfl⟩

/-- C3 (as stated, refuted): in the human session the tested person's reply "hello" is
accepted and relayed, and in the AI session the tester's "hi" is answered with a
generated response; after either, no timer is armed for the session. -/
theorem relay_leaves_no_timer_armed :
    (∃ t ∈ humanAfterHi.timers, t.2 = "5") ∧
    (1, Event.newMessage "tested_person" "hello") ∈
      (handleMessage humanAfterHi 2 "5" "hello").emitted ∧
    ¬ (∃ t ∈ (handleMessage humanAfterHi 2 "5" "hello").state.timers, t.2 = "5") ∧
    (∃ t ∈ aiSession.timers, t.2 = "5") ∧
    (handleMessage aiSession 1 "5" "hi").pending = some pendingHi ∧
    (1, Event.newMessage "ai" "yo") ∈ (resumeAfterGeneration aiAfterHi pendingHi (some "yo")).2 ∧
    ¬ (∃ t ∈ (resumeAfterGeneration aiAfterHi pendingHi (some "yo")).1.timers, t.2 = "5") := by
  decide

/-- C3 (amended): when the tested person's message is accepted and relayed, and when the
tester's message in an AI session is accepted, `handleMessage` clears the timer stored in
the session and arms none: the armed timers afterwards are the earlier ones without the
session's handle, so an expiry of that handle does nothing; the resumed AI branch, with a
generated response or without, leaves the armed timers as they are. -/
theorem relay_clears_timer_without_rearming (s : State) (sessionId text : String)
    (ref : GameRef) (game : Game) (hgame : lookupGame s sessionId = some (ref, game)) :
    (∀ p, game.testedPerson = some p → p.id ≠ game.tester.id → game.messages ≠ [] →
      (game.tester.socket, Event.newMessage "tested_person" text) ∈
        (handleMessage s p.id sessionId text).emitted ∧
      (handleMessage s p.id sessionId text).state.timers =
        s.timers.filter (fun t => t.1 != game.timerId) ∧
      (handleMessage s p.id sessionId text).state.nextTimer = s.nextTimer ∧
      timerFires (handleMessage s p.id sessionId text).state game.timerId =
        ((handleMessage s p.id sessionId text).state, [])) ∧
    (game.isAI = true → game.testedPerson = none →
      (handleMessage s game.tester.id sessionId text).state.timers =
        s.timers.filter (fun t => t.1 != game.timerId) ∧
      (handleMessage s game.tester.id sessionId text).state.nextTimer = s.nextTimer ∧
      timerFires (handleMessage s game.tester.id sessionId text).state game.timerId =
        ((handleMessage s game.tester.id sessionId text).state, []) ∧
      ∃ k, (handleMessage s game.tester.id sessionId text).pending = some k ∧
        ∀ (s2 : State) (result : Option String),
          (resumeAfterGeneration s2 k result).1.timers = s2.timers ∧
          (resumeAfterGeneration s2 k result).1.nextTimer = s2.nextTimer) := by
  constructor
  · intro p hp hne hlog
    rw [handleMessage_testedPerson s sessionId text ref game p hgame hp hne hlog]
    refine ⟨by simp, rfl, rfl, ?_⟩
    exact timerFires_cleared _ _
  · intro hai hp
    rw [handleMessage_tester_ai s sessionId text ref game hgame hai hp]
    refine ⟨rfl, rfl, timerFires_cleared _ _, _, rfl, ?_⟩
    intro s2 result
    exact resumeAfterGeneration_timers s2 _ result

/-- Witness for C3 (amended): the reply of tested person 2 in the human session, and the
tester's message in the AI session. -/
theorem relay_clears_timer_without_rearming_witness :
    lookupGame humanAfterHi "5" = some (0, humanGameHi) ∧
    (handleMessage humanAfterHi 2 "5" "hello").state.timers = [] ∧
    lookupGame aiSession "5" = some (0, aiGame) ∧
    (handleMessage aiSession 1 "5" "hi").state.timers = [] :=
  ⟨by decide,
    ((relay_clears_timer_without_rearming humanAfterHi "5" "hello" 0 humanGameHi
      (by decide)).1 (Participant.ofSocket 2) (by decide) (by decide) (by decide)).2.1,
    by decide,
    ((relay_clears_timer_without_rearming aiSession "5" "hi" 0 aiGame
      (by decide)).2 (by decide) (by decide)).1⟩

/-- C4 (code defect): socket 3 takes no part in the human session "5", yet its message is
pushed onto the log (tagged 'tested_person') before the error is emitted; the error goes
to socket 3 only and the timer is untouched. -/
theorem stranger_message_is_logged :
    (lookupGame humanSession "5").map (fun g => g.2.messages) = some [] ∧
    (handleMessage humanSession 3 "5" "x").emitted =
      [(3, Event.error "You are not part of this game session.")] ∧
    (lookupGame (handleMessage humanSession 3 "5" "x").state "5").map
      (fun g => g.2.messages) = some [{ sender := "tested_person", text := "x" }] ∧
    (handleMessage humanSession 3 "5" "x").state.timers = humanSession.timers := by
  decide

/-- C5 (code defect): socket 3 is not the tester of the human session "5"; its guess is
answered with an error to socket 3 only and the session stays registered with its log,
but the session's timer, armed before the call, is cleared by it. -/
theorem stranger_guess_clears_timer :
    humanSession.timers = [(0, "5")] ∧
    (handleGuess humanSession 3 "5" "AI").2 =
      [(3, Event.error "Only the Tester can make a guess.")] ∧
    lookupGame (handleGuess humanSession 3 "5" "AI").1 "5" = lookupGame humanSession "5" ∧
    (lookupGame humanSession "5").isSome = true ∧
    (handleGuess humanSession 3 "5" "AI").1.timers = [] := by
  decide

/-- C6 (code defect): the tester's "hi" in the human session reaches tested person 2 with
exactly that text but under the sender tag 'tested_person', while the log entry of the
same message is tagged 'tester'. -/
theorem tester_message_relayed_with_wrong_tag :
    (handleMessage humanSession 1 "5" "hi").emitted =
      [(2, Event.newMessage "tested_person" "hi")] ∧
    (2, Event.newMessage "tester" "hi") ∉ (handleMessage humanSession 1 "5" "hi").emitted ∧
    (lookupGame (handleMessage humanSession 1 "5" "hi").state "5").map
      (fun g => g.2.messages) = some [{ sender := "tester", text := "hi" }] := by
  decide

/-- C7 (code defect): with an empty catalog and the coin giving an AI pairing, the copy
under `Controllers/` registers a session whose persona is undefined, while the copy at
the root registers one with the default persona; a human pairing has no persona. -/
theorem empty_catalog_gives_undefined_persona :
    (lookupGame (runJoins Copy.controllers (State.init []) aiJoins) "5").map
      (fun g => (g.2.isAI, g.2.aiPersona)) = some (true, none) ∧
    (lookupGame (runJoins Copy.root (State.init []) aiJoins) "5").map
      (fun g => (g.2.isAI, g.2.aiPersona)) = some (true, some defaultPersona) ∧
    (lookupGame (runJoins Copy.controllers (State.init []) humanJoins) "5").map
      (fun g => (g.2.isAI, g.2.aiPersona)) = some (false, none) := by
  decide

/-! ## Guessing, and the suspended AI branch -/

theorem lookup_deleteGame (m : List (String × GameRef)) (sessionId : String) :
    (deleteGame m sessionId).lookup sessionId = none := by
  induction m with
  | nil => rfl
  | cons e m ih =>
    obtain ⟨key, ref⟩ := e
    by_cases h : key = sessionId
    · simpa [deleteGame, List.filter_cons, h] using ih
    · have h2 : ¬ sessionId = key := fun h3 => h h3.symm
      have hb : (sessionId == key) = false := by simp [h2]
      simp only [deleteGame] at ih
      simp [deleteGame, List.filter_cons, h, List.lookup_cons, hb, ih]

/-- C8 (as stated, refuted): the AI session "5" has an empty log, so no response yet,
and the tester's guess is accepted all the same: the tester receives the terminal
`gameEnd` and the session is removed. -/
theorem guess_accepted_before_any_response :
    (lookupGame aiSession "5").map (fun g => g.2.messages) = some [] ∧
    (handleGuess aiSession 1 "5" "AI").2.head? =
      some (1, Event.gameEnd "guess" (some "Great job! The user was an AI!") (some true)) ∧
    lookupGame (handleGuess aiSession 1 "5" "AI").1 "5" = none := by
  decide

/-- C8 (amended): `handleGuess` accepts a guess by the tester for every registered
session, whatever its log holds: the tester receives `gameEnd` with reason 'guess' and
the session is removed from the registry. -/
theorem guess_accepted_whatever_the_log (s : State) (sessionId guess : String)
    (ref : GameRef) (game : Game) (hgame : lookupGame s sessionId = some (ref, game)) :
    (∃ result correct, (handleGuess s game.tester.id sessionId guess).2.head? =
      some (game.tester.socket, Event.gameEnd "guess" (some result) (some correct))) ∧
    lookupGame (handleGuess s game.tester.id sessionId guess).1 sessionId = none := by
  rw [handleGuess_by_tester s sessionId guess ref game hgame]
  refine ⟨⟨_, _, rfl⟩, ?_⟩
  simp only [lookupGame, lookup_deleteGame]

/-- Witness for C8 (amended): the tester of the AI session guesses on an empty log. -/
theorem guess_accepted_whatever_the_log_witness :
    lookupGame aiSession "5" = some (0, aiGame) ∧
    lookupGame (handleGuess aiSession aiGame.tester.id "5" "human").1 "5" = none :=
  ⟨by decide, (guess_accepted_whatever_the_log aiSession "5" "human" 0 aiGame (by decide)).2⟩

theorem lookupGame_eq_some (s : State) (sessionId : String) (ref : GameRef) (game : Game)
    (hgame : lookupGame s sessionId = some (ref, game)) :
    s.activeGames.lookup sessionId = some ref ∧ s.heap[ref]? = some game := by
  unfold lookupGame at hgame
  cases hl : s.activeGames.lookup sessionId with
  | none => simp [hl] at hgame
  | some r =>
    cases hh : s.heap[r]? with
    | none => simp [hl, hh] at hgame
    | some g =>
      simp only [hl, hh, Option.some.injEq, Prod.mk.injEq] at hgame
      obtain ⟨rfl, rfl⟩ := hgame
      exact ⟨rfl, hh⟩

theorem mem_of_lookup (m : List (String × GameRef)) (sessionId : String) (ref : GameRef)
    (h : m.lookup sessionId = some ref) : (sessionId, ref) ∈ m := by
  induction m with
  | nil => simp at h
  | cons e m ih =>
    obtain ⟨key, r⟩ := e
    by_cases hk : sessionId = key
    · subst hk
      simp only [List.lookup_cons, beq_self_eq_true, Option.some.injEq] at h
      subst h
      exact List.mem_cons_self _ _
    · have hb : (sessionId == key) = false := by simp [hk]
      simp only [List.lookup_cons, hb] at h
      exact List.mem_cons_of_mem _ (ih h)

theorem lookupGame_set_unregistered (s : State) (ref : GameRef) (g : Game)
    (hfree : ∀ e ∈ s.activeGames, e.2 ≠ ref) (sessionId : String) :
    lookupGame { s with heap := s.heap.set ref g } sessionId = lookupGame s sessionId := by
  unfold lookupGame
  cases hl : s.activeGames.lookup sessionId with
  | none => rfl
  | some r =>
    have hr : ref ≠ r := fun h => hfree _ (mem_of_lookup _ _ _ hl) h.symm
    simp only [List.getElem?_set_ne hr]

/-- C9 (as stated, refuted): the tester of the AI session sends "hi" and, while the AI
branch is suspended, guesses, which removes the session; the resumed branch still builds
the request, pushes the 'ai' entry onto the detached game object and emits `newMessage`
and `gameEnd` with reason 'readyToGuess' to the tester. -/
theorem resumed_branch_emits_after_removal :
    (handleMessage aiSession 1 "5" "hi").pending = some pendingHi ∧
    lookupGame aiGuessedMeanwhile "5" = none ∧
    (resumeAfterDelay aiGuessedMeanwhile pendingHi).isLeft = true ∧
    (resumeAfterGeneration aiGuessedMeanwhile pendingHi (some "yo")).2 =
      [(1, Event.newMessage "ai" "yo"), (1, readyTester)] ∧
    (aiGuessedMeanwhile.heap[0]?).map (fun g => g.messages) =
      some [{ sender := "tester", text := "hi" }] ∧
    ((resumeAfterGeneration aiGuessedMeanwhile pendingHi (some "yo")).1.heap[0]?).map
      (fun g => g.messages) =
      some [{ sender := "tester", text := "hi" }, { sender := "ai", text := "yo" }] := by
  decide

/-- C9 (amended): when the AI branch resumes with a generated response after its session
was removed from the registry, it leaves the registry, the lobby, the waiting queue and
the timers unchanged and every registered session as it was, but it still pushes the
'ai' entry onto the detached game object and emits `newMessage` with sender 'ai' to the
sender and `gameEnd` with reason 'readyToGuess' to the tester. -/
theorem resumed_branch_after_removal (s2 : State) (k : Pending) (g : Game)
    (response : String) (hobj : s2.heap[k.game]? = some g)
    (hremoved : ∀ e ∈ s2.activeGames, e.2 ≠ k.game) :
    (resumeAfterGeneration s2 k (some response)).2 =
      [(k.socket, Event.newMessage "ai" response), (k.tester.socket, readyTester)]
        ++ (match k.testedPerson with
            | some p => [(p.socket, readyTested)]
            | none => []) ∧
    (resumeAfterGeneration s2 k (some response)).1.heap =
      s2.heap.set k.game (g.push "ai" response) ∧
    (resumeAfterGeneration s2 k (some response)).1.activeGames = s2.activeGames ∧
    (resumeAfterGeneration s2 k (some response)).1.lobby = s2.lobby ∧
    (resumeAfterGeneration s2 k (some response)).1.waitingQueue = s2.waitingQueue ∧
    (resumeAfterGeneration s2 k (some response)).1.timers = s2.timers ∧
    (∀ sessionId, lookupGame (resumeAfterGeneration s2 k (some response)).1 sessionId =
      lookupGame s2 sessionId) := by
  have hr : resumeAfterGeneration s2 k (some response) =
      ({ s2 with heap := s2.heap.set k.game (g.push "ai" response) },
        [(k.socket, Event.newMessage "ai" response), (k.tester.socket, readyTester)]
          ++ (match k.testedPerson with
              | some p => [(p.socket, readyTested)]
              | none => [])) := by
    simp only [resumeAfterGeneration, hobj]
  rw [hr]
  refine ⟨rfl, rfl, rfl, rfl, rfl, rfl, ?_⟩
  intro sessionId
  exact lookupGame_set_unregistered s2 k.game _ hremoved sessionId

/-- Witness for C9 (amended): the branch suspended on "hi" resumes after the guess. -/
theorem resumed_branch_after_removal_witness :
    aiGuessedMeanwhile.heap[pendingHi.game]? = some (aiGame.push "tester" "hi") ∧
    (∀ e ∈ aiGuessedMeanwhile.activeGames, e.2 ≠ pendingHi.game) ∧
    (resumeAfterGeneration aiGuessedMeanwhile pendingHi (some "yo")).2 =
      [(pendingHi.socket, Event.newMessage "ai" "yo"), (pendingHi.tester.socket, readyTester)]
        ++ (match pendingHi.testedPerson with
            | some p => [(p.socket, readyTested)]
            | none => []) :=
  ⟨by decide, by decide,
    (resumed_branch_after_removal aiGuessedMeanwhile pendingHi (aiGame.push "tester" "hi") "yo"
      (by decide) (by decide)).1⟩

/-- C10 (as stated, refuted): the timer of the AI session is armed before the tester's
"hi"; the generation call fails, the tester alone receives the error and the state is
left as it was when the branch resumed, but the timer is not armed afterwards. -/
theorem generation_failure_leaves_timer_cleared :
    (∃ t ∈ aiSession.timers, t.1 = aiGame.timerId) ∧
    (handleMessage aiSession 1 "5" "hi").pending = some pendingHi ∧
    resumeAfterGeneration aiAfterHi pendingHi none =
      (aiAfterHi, [(1, Event.error
        "I am currently experiencing technical difficulties. Please try again later.")]) ∧
    ¬ (∃ t ∈ (resumeAfterGeneration aiAfterHi pendingHi none).1.timers,
        t.1 = aiGame.timerId) := by
  decide

/-- C10 (amended): a tester's message in a registered AI session clears the session's
timer when it is accepted and suspends the AI branch; when the generation call then
fails, the resumed branch emits the error notice to the tester only and changes no
state, so the session stays as registered as it was, gets no 'ai' entry and no
'readyToGuess', and its timer stays cleared. -/
theorem generation_failure_keeps_session (s : State) (sessionId text : String)
    (ref : GameRef) (game : Game) (hgame : lookupGame s sessionId = some (ref, game))
    (hai : game.isAI = true) (hp : game.testedPerson = none) :
    (handleMessage s game.tester.id sessionId text).emitted = [] ∧
    lookupGame (handleMessage s game.tester.id sessionId text).state sessionId =
      some (ref, game.push "tester" text) ∧
    (handleMessage s game.tester.id sessionId text).state.timers =
      s.timers.filter (fun t => t.1 != game.timerId) ∧
    ∃ k, (handleMessage s game.tester.id sessionId text).pending = some k ∧
      ∀ (s2 : State), resumeAfterGeneration s2 k none =
        (s2, [(game.tester.id, Event.error
          "I am currently experiencing technical difficulties. Please try again later.")]) := by
  obtain ⟨hl, hh⟩ := lookupGame_eq_some s sessionId ref game hgame
  have hlt : ref < s.heap.length := by
    rcases Nat.lt_or_ge ref s.heap.length with h | h
    · exact h
    · rw [List.getElem?_eq_none h] at hh
      cases hh
  rw [handleMessage_tester_ai s sessionId text ref game hgame hai hp]
  refine ⟨rfl, ?_, rfl, _, rfl, ?_⟩
  · simp [lookupGame, clearTimeout, hl, List.getElem?_set_self hlt]
  · intro s2
    rfl

/-- Witness for C10 (amended): the tester's "hi" in the AI session. -/
theorem generation_failure_keeps_session_witness :
    lookupGame aiSession "5" = some (0, aiGame) ∧ aiGame.isAI = true ∧
    aiGame.testedPerson = none ∧
    (handleMessage aiSession aiGame.tester.id "5" "hi").emitted = [] :=
  ⟨by decide, by decide, by decide,
    (generation_failure_keeps_session aiSession "5" "hi" 0 aiGame (by decide) (by decide)
      (by decide)).1⟩

/-! ## Joining the lobby -/

theorem pairOrWait_wait (copy : Copy) (s1 : State) (socket : SocketId) (d : Draw)
    (h : s1.lobby.tester = none ∨ s1.lobby.testedPerson = none) :
    pairOrWait copy s1 socket d =
      (s1, [(socket, Event.waitingForPartner "Waiting for a partner to join...")]) := by
  unfold pairOrWait
  split
  · rename_i t p ht hp
    rcases h with h | h
    · rw [h] at ht; cases ht
    · rw [h] at hp; cases hp
  · rfl

theorem pairOrWait_ai (copy : Copy) (s1 : State) (socket : SocketId) (d : Draw)
    (t p : Participant) (ht : s1.lobby.tester = some t) (hp : s1.lobby.testedPerson = some p)
    (hai : d.isAI = true) :
    pairOrWait copy s1 socket d =
      ({ s1 with
          lobby := { tester := none, testedPerson := none }
          waitingQueue := s1.waitingQueue ++ [p]
          heap := s1.heap ++
            [{ tester := t, testedPerson := none, isAI := true
               aiPersona := selectPersona copy s1.personas d.pick
               messages := [], chatCount := 0, timerId := s1.nextTimer }]
          activeGames := assignGame s1.activeGames (toString d.now) s1.heap.length
          timers := s1.timers ++ [(s1.nextTimer, toString d.now)]
          nextTimer := s1.nextTimer + 1 },
        [(t.socket, Event.matchFound (toString d.now) matchMessage "tester"),
         (p.socket, Event.watchingGame
            "The tester is currently playing with an AI. You are next in the queue!"
            (toString d.now))]) := by
  simp [pairOrWait, ht, hp, hai]

theorem pairOrWait_human (copy : Copy) (s1 : State) (socket : SocketId) (d : Draw)
    (t p : Participant) (ht : s1.lobby.tester = some t) (hp : s1.lobby.testedPerson = some p)
    (hai : d.isAI = false) :
    pairOrWait copy s1 socket d =
      ({ s1 with
          lobby := { tester := none, testedPerson := none }
          heap := s1.heap ++
            [{ tester := t, testedPerson := some p, isAI := false, aiPersona := none
               messages := [], chatCount := 0, timerId := s1.nextTimer }]
          activeGames := assignGame s1.activeGames (toString d.now) s1.heap.length
          timers := s1.timers ++ [(s1.nextTimer, toString d.now)]
          nextTimer := s1.nextTimer + 1 },
        [(t.socket, Event.matchFound (toString d.now) matchMessage "tester"),
         (p.socket, Event.matchFound (toString d.now) matchMessage "tested person")]) := by
  simp [pairOrWait, ht, hp, hai]

theorem lookupGame_assign (s1 : State) (sessionId : String) (g : Game) (s2 : State)
    (hheap : s2.heap = s1.heap ++ [g])
    (hgames : s2.activeGames = assignGame s1.activeGames sessionId s1.heap.length) :
    lookupGame s2 sessionId = some (s1.heap.length, g) := by
  simp [lookupGame, hheap, hgames, assignGame, List.lookup_cons]

/-- C11 (as stated, refuted): socket 3 waits in the tester slot and socket 2 in the queue;
socket 4 joins as tested person, the queue head 2 takes the slot and is paired with 3,
and no event at all is sent to socket 4. -/
theorem queued_head_pairs_instead_of_joiner :
    testerWaiting.lobby.tester = some (Participant.ofSocket 3) ∧
    testerWaiting.waitingQueue = [Participant.ofSocket 2] ∧
    (handleJoinLobby Copy.controllers testerWaiting 4 "testedPerson"
      { isAI := false, pick := 0, now := 6 }).2 =
      [(3, Event.matchFound "6" matchMessage "tester"),
       (2, Event.matchFound "6" matchMessage "tested person")] ∧
    ¬ (∃ e ∈ (handleJoinLobby Copy.controllers testerWaiting 4 "testedPerson"
      { isAI := false, pick := 0, now := 6 }).2, e.1 = 4) := by
  decide

/-- C11 (amended): a joiner that takes a slot (role tester, or an empty waiting queue)
receives `matchFound`, `waitingForPartner` or `watchingGame`; whenever the slot update
leaves a slot empty the only emission is `waitingForPartner` to the joiner; and when a
pairing is made every emission goes to one of the two slot occupants. -/
theorem joiner_notified_when_it_takes_a_slot (copy : Copy) (s : State) (socket : SocketId)
    (role : String) (d : Draw) :
    ((role = "tester" ∨ s.waitingQueue = []) →
      ∃ e ∈ (handleJoinLobby copy s socket role d).2,
        e.1 = socket ∧ e.2.isJoinNotice = true) ∧
    (((fillSlot s socket role).lobby.tester = none ∨
        (fillSlot s socket role).lobby.testedPerson = none) →
      (handleJoinLobby copy s socket role d).2 =
        [(socket, Event.waitingForPartner "Waiting for a partner to join...")]) ∧
    (∀ t p, (fillSlot s socket role).lobby.tester = some t →
      (fillSlot s socket role).lobby.testedPerson = some p →
      ∀ e ∈ (handleJoinLobby copy s socket role d).2, e.1 = t.socket ∨ e.1 = p.socket) := by
  have hwait : ((fillSlot s socket role).lobby.tester = none ∨
        (fillSlot s socket role).lobby.testedPerson = none) →
      (handleJoinLobby copy s socket role d).2 =
        [(socket, Event.waitingForPartner "Waiting for a partner to join...")] := by
    intro h
    unfold handleJoinLobby
    rw [pairOrWait_wait copy _ socket d h]
  have hpair : ∀ t p, (fillSlot s socket role).lobby.tester = some t →
      (fillSlot s socket role).lobby.testedPerson = some p →
      (handleJoinLobby copy s socket role d).2 =
        [(t.socket, Event.matchFound (toString d.now) matchMessage "tester"),
         (p.socket, Event.watchingGame
            "The tester is currently playing with an AI. You are next in the queue!"
            (toString d.now))] ∨
      (handleJoinLobby copy s socket role d).2 =
        [(t.socket, Event.matchFound (toString d.now) matchMessage "tester"),
         (p.socket, Event.matchFound (toString d.now) matchMessage "tested person")] := by
    intro t p ht hp
    unfold handleJoinLobby
    cases hai : d.isAI with
    | true => left; rw [pairOrWait_ai copy _ socket d t p ht hp hai]
    | false => right; rw [pairOrWait_human copy _ socket d t p ht hp hai]
  refine ⟨?_, hwait, ?_⟩
  · intro hslot
    have hocc : (∃ t, (fillSlot s socket role).lobby.tester = some t ∧ t.socket = socket) ∨
        (∃ p, (fillSlot s socket role).lobby.testedPerson = some p ∧ p.socket = socket) := by
      unfold fillSlot
      by_cases hr : role = "tester"
      · left
        simp [hr, Participant.ofSocket]
      · right
        rcases hslot with h | h
        · exact absurd h hr
        · simp [hr, h, Participant.ofSocket]
    cases ht : (fillSlot s socket role).lobby.tester with
    | none =>
      rw [hwait (Or.inl ht)]
      exact ⟨_, List.mem_singleton.mpr rfl, rfl, rfl⟩
    | some t =>
      cases hp : (fillSlot s socket role).lobby.testedPerson with
      | none =>
        rw [hwait (Or.inr hp)]
        exact ⟨_, List.mem_singleton.mpr rfl, rfl, rfl⟩
      | some p =>
        rcases hocc with ⟨t2, ht2, hs⟩ | ⟨p2, hp2, hs⟩
        · rw [ht] at ht2
          cases ht2
          rcases hpair t p ht hp with h | h <;> rw [h] <;>
            exact ⟨_, List.mem_cons_self _ _, hs, rfl⟩
        · rw [hp] at hp2
          cases hp2
          rcases hpair t p ht hp with h | h <;> rw [h] <;>
            exact ⟨_, List.mem_cons_of_mem _ (List.mem_cons_self _ _), hs, rfl⟩
  · intro t p ht hp e he
    rcases hpair t p ht hp with h | h <;> rw [h] at he <;>
      simp only [List.mem_cons, List.mem_singleton, List.not_mem_nil, or_false] at he <;>
      rcases he with rfl | rfl <;> simp

/-- Witness for C11 (amended): socket 2 joins the empty lobby as tested person and
receives `waitingForPartner`. -/
theorem joiner_notified_when_it_takes_a_slot_witness :
    (State.init [jake]).waitingQueue = [] ∧
    (∃ e ∈ (handleJoinLobby Copy.controllers (State.init [jake]) 2 "testedPerson"
        { isAI := false, pick := 0, now := 5 }).2,
      e.1 = 2 ∧ e.2.isJoinNotice = true) :=
  ⟨rfl, (joiner_notified_when_it_takes_a_slot Copy.controllers (State.init [jake]) 2
      "testedPerson" { isAI := false, pick := 0, now := 5 }).1 (Or.inr rfl)⟩

/-- C13: `handleJoinLobby` runs the pairing test on the lobby as the slot update left it.
With a role other than tester and a non-empty queue the tested-person slot receives the
queue head, the queue keeps exactly the rest in order, the tester slot is untouched and a
joiner that was held nowhere is in neither slot nor the queue; with an empty queue the
slot receives the joiner. With role tester the tester slot receives the joiner whatever
it held, and the other slot and the queue are untouched. -/
theorem slot_update_by_role (copy : Copy) (s : State) (socket : SocketId) (role : String)
    (d : Draw) :
    handleJoinLobby copy s socket role d = pairOrWait copy (fillSlot s socket role) socket d ∧
    (role ≠ "tester" → ∀ head rest, s.waitingQueue = head :: rest →
      (fillSlot s socket role).lobby.testedPerson = some head ∧
      (fillSlot s socket role).waitingQueue = rest ∧
      (fillSlot s socket role).lobby.tester = s.lobby.tester ∧
      (socket ∉ s.participantIds →
        socket ∉ (fillSlot s socket role).lobby.participantIds ∧
        socket ∉ (fillSlot s socket role).waitingQueue.map (fun q => q.id))) ∧
    (role ≠ "tester" → s.waitingQueue = [] →
      (fillSlot s socket role).lobby.testedPerson = some (Participant.ofSocket socket) ∧
      (fillSlot s socket role).waitingQueue = [] ∧
      (fillSlot s socket role).lobby.tester = s.lobby.tester) ∧
    (role = "tester" →
      (fillSlot s socket role).lobby.tester = some (Participant.ofSocket socket) ∧
      (fillSlot s socket role).lobby.testedPerson = s.lobby.testedPerson ∧
      (fillSlot s socket role).waitingQueue = s.waitingQueue) := by
  refine ⟨rfl, ?_, ?_, ?_⟩
  · intro hr head rest hq
    have hf : fillSlot s socket role =
        { s with lobby := { s.lobby with testedPerson := some head }, waitingQueue := rest } := by
      simp [fillSlot, hr, hq]
    rw [hf]
    refine ⟨rfl, rfl, rfl, ?_⟩
    intro hfresh
    simp only [State.participantIds, Lobby.participantIds, hq, List.map_cons, List.mem_append,
      List.mem_cons, not_or] at hfresh
    obtain ⟨⟨⟨h1, h2⟩, h3, h4⟩, _⟩ := hfresh
    refine ⟨?_, h4⟩
    simp only [Lobby.participantIds, List.mem_append, List.mem_singleton, not_or]
    exact ⟨h1, fun h => h3 h⟩
  · intro hr hq
    have hf : fillSlot s socket role =
        { s with lobby := { s.lobby with testedPerson := some (Participant.ofSocket socket) } } := by
      simp [fillSlot, hr, hq]
    rw [hf]
    exact ⟨rfl, hq, rfl⟩
  · intro hr
    have hf : fillSlot s socket role =
        { s with lobby := { s.lobby with tester := some (Participant.ofSocket socket) } } := by
      simp [fillSlot, hr]
    rw [hf]
    exact ⟨rfl, rfl, rfl⟩

/-- Witness for C13: socket 4 joins as tested person while socket 2 heads the queue. -/
theorem slot_update_by_role_witness :
    testerWaiting.waitingQueue = [Participant.ofSocket 2] ∧
    (fillSlot testerWaiting 4 "testedPerson").lobby.testedPerson =
      some (Participant.ofSocket 2) ∧
    (fillSlot testerWaiting 4 "testedPerson").waitingQueue = [] :=
  ⟨by decide,
    ((slot_update_by_role Copy.controllers testerWaiting 4 "testedPerson"
      { isAI := false, pick := 0, now := 6 }).2.1 (by decide) (Participant.ofSocket 2) []
      (by decide)).1,
    ((slot_update_by_role Copy.controllers testerWaiting 4 "testedPerson"
      { isAI := false, pick := 0, now := 6 }).2.1 (by decide) (Participant.ofSocket 2) []
      (by decide)).2.1⟩

/-- C14: when the slot update leaves tester `t` and tested person `p` in the slots and the
coin gives an AI pairing, `handleJoinLobby` registers under the new session id an AI
session of `t` without tested person, appends `p` behind the entries the queue holds at
that moment, and emits `matchFound` with role 'tester' and the session id to `t` and
`watchingGame` to `p`, and nothing else. -/
theorem ai_pairing_displaces_tested_person (copy : Copy) (s : State) (socket : SocketId)
    (role : String) (d : Draw) (t p : Participant)
    (ht : (fillSlot s socket role).lobby.tester = some t)
    (hp : (fillSlot s socket role).lobby.testedPerson = some p) (hai : d.isAI = true) :
    (∃ ref g, lookupGame (handleJoinLobby copy s socket role d).1 (toString d.now) =
        some (ref, g) ∧
      g.testedPerson = none ∧ g.tester = t ∧ g.isAI = true ∧ g.messages = []) ∧
    (handleJoinLobby copy s socket role d).1.waitingQueue =
      (fillSlot s socket role).waitingQueue ++ [p] ∧
    (handleJoinLobby copy s socket role d).2 =
      [(t.socket, Event.matchFound (toString d.now) matchMessage "tester"),
       (p.socket, Event.watchingGame
          "The tester is currently playing with an AI. You are next in the queue!"
          (toString d.now))] := by
  unfold handleJoinLobby
  rw [pairOrWait_ai copy _ socket d t p ht hp hai]
  refine ⟨⟨_, _, lookupGame_assign (fillSlot s socket role) (toString d.now) _ _ rfl rfl,
    rfl, rfl, rfl, rfl⟩, rfl, rfl⟩

/-- Witness for C14: socket 2 joins as tested person after tester 1, the coin giving AI. -/
theorem ai_pairing_displaces_tested_person_witness :
    (fillSlot (runJoins Copy.controllers (State.init [jake]) (aiJoins.take 1)) 2
      "testedPerson").lobby.tester = some (Participant.ofSocket 1) ∧
    (handleJoinLobby Copy.controllers
      (runJoins Copy.controllers (State.init [jake]) (aiJoins.take 1)) 2 "testedPerson"
      { isAI := true, pick := 0, now := 5 }).1.waitingQueue =
      (fillSlot (runJoins Copy.controllers (State.init [jake]) (aiJoins.take 1)) 2
        "testedPerson").waitingQueue ++ [Participant.ofSocket 2] :=
  ⟨by decide,
    (ai_pairing_displaces_tested_person Copy.controllers
      (runJoins Copy.controllers (State.init [jake]) (aiJoins.take 1)) 2 "testedPerson"
      { isAI := true, pick := 0, now := 5 } (Participant.ofSocket 1) (Participant.ofSocket 2)
      (by decide) (by decide) rfl).2.1⟩

/-! ## The invariant of the reachable worlds -/

theorem handleMessage_frame (s : State) (socket : SocketId) (sessionId message : String) :
    (handleMessage s socket sessionId message).state.lobby = s.lobby ∧
    (handleMessage s socket sessionId message).state.waitingQueue = s.waitingQueue ∧
    (handleMessage s socket sessionId message).state.activeGames = s.activeGames ∧
    ((handleMessage s socket sessionId message).state.heap = s.heap ∨
      ∃ ref game sender, lookupGame s sessionId = some (ref, game) ∧
        (handleMessage s socket sessionId message).state.heap =
          s.heap.set ref (game.push sender message)) := by
  unfold handleMessage
  cases hg : lookupGame s sessionId with
  | none => exact ⟨rfl, rfl, rfl, Or.inl rfl⟩
  | some rg =>
    obtain ⟨ref, game⟩ := rg
    simp only
    split
    · exact ⟨rfl, rfl, rfl, Or.inl rfl⟩
    · split
      · split
        · exact ⟨rfl, rfl, rfl, Or.inr ⟨_, _, _, rfl, rfl⟩⟩
        · split <;> exact ⟨rfl, rfl, rfl, Or.inr ⟨_, _, _, rfl, rfl⟩⟩
      · split
        · split <;> exact ⟨rfl, rfl, rfl, Or.inr ⟨_, _, _, rfl, rfl⟩⟩
        · exact ⟨rfl, rfl, rfl, Or.inr ⟨_, _, _, rfl, rfl⟩⟩

theorem inv_of_frame (s s2 : State) (h : s.Inv) (hlobby : s2.lobby = s.lobby)
    (hgames : ∀ e ∈ s2.activeGames, e ∈ s.activeGames)
    (hheap : s2.heap = s.heap ∨ ∃ ref game sender text,
      s.heap[ref]? = some game ∧ s2.heap = s.heap.set ref (game.push sender text)) :
    s2.Inv := by
  obtain ⟨hv, hc, hl⟩ := h
  refine ⟨?_, ?_, ?_⟩
  · intro e he
    have hlen : s2.heap.length = s.heap.length := by
      rcases hheap with h | ⟨ref, game, sender, text, _, h⟩
      · rw [h]
      · rw [h, List.length_set]
    rw [hlen]
    exact hv e (hgames e he)
  · intro g hg
    rcases hheap with h | ⟨ref, game, sender, text, hget, h⟩
    · rw [h] at hg
      exact hc g hg
    · rw [h] at hg
      rcases List.mem_or_eq_of_mem_set hg with hm | rfl
      · exact hc g hm
      · exact hc game (List.getElem?_mem hget)
  · rw [hlobby]
    exact hl

theorem handleMessage_inv (s : State) (socket : SocketId) (sessionId message : String)
    (h : s.Inv) : (handleMessage s socket sessionId message).state.Inv := by
  obtain ⟨hl, _, hg, hh⟩ := handleMessage_frame s socket sessionId message
  apply inv_of_frame s _ h hl
  · intro e he
    rw [hg] at he
    exact he
  · rcases hh with hh | ⟨ref, game, sender, hlook, hh⟩
    · exact Or.inl hh
    · exact Or.inr ⟨ref, game, sender, message,
        (lookupGame_eq_some s sessionId ref game hlook).2, hh⟩

theorem resumeAfterGeneration_inv (s : State) (k : Pending) (result : Option String)
    (h : s.Inv) : (resumeAfterGeneration s k result).1.Inv := by
  unfold resumeAfterGeneration
  split
  · rename_i aiResponse
    cases hget : s.heap[k.game]? with
    | none => exact h
    | some game =>
      exact inv_of_frame s _ h rfl (fun e he => he)
        (Or.inr ⟨k.game, game, "ai", aiResponse, hget, rfl⟩)
  · exact h

theorem handleGuess_inv (s : State) (socket : SocketId) (sessionId guess : String)
    (h : s.Inv) : (handleGuess s socket sessionId guess).1.Inv := by
  unfold handleGuess
  split
  · exact h
  · simp only
    split
    · exact inv_of_frame s _ h rfl (fun e he => he) (Or.inl rfl)
    · exact inv_of_frame s _ h rfl (fun e he => List.mem_of_mem_filter he) (Or.inl rfl)

theorem handleTimerExpired_inv (s : State) (sessionId : String) (h : s.Inv) :
    (handleTimerExpired s sessionId).1.Inv := by
  unfold handleTimerExpired
  split
  · exact inv_of_frame s _ h rfl (fun e he => List.mem_of_mem_filter he) (Or.inl rfl)
  · exact h

theorem timerFires_inv (s : State) (timerId : TimerId) (h : s.Inv) :
    (timerFires s timerId).1.Inv := by
  unfold timerFires
  split
  · apply handleTimerExpired_inv
    exact inv_of_frame s _ h rfl (fun e he => he) (Or.inl rfl)
  · exact h

theorem handleDisconnect_inv (s : State) (socket : SocketId) (h : s.Inv) :
    (handleDisconnect s socket).Inv := by
  obtain ⟨hv, hc, hl⟩ := h
  refine ⟨hv, hc, ?_⟩
  simp only [handleDisconnect]
  rcases hl with hl | hl
  · left; rw [hl]
  · right; rw [hl]

theorem pairOrWait_lobby (copy : Copy) (s1 : State) (socket : SocketId) (d : Draw) :
    (pairOrWait copy s1 socket d).1.lobby.tester = none ∨
      (pairOrWait copy s1 socket d).1.lobby.testedPerson = none := by
  cases ht : s1.lobby.tester with
  | none =>
    rw [pairOrWait_wait copy s1 socket d (Or.inl ht)]
    exact Or.inl ht
  | some t =>
    cases hp : s1.lobby.testedPerson with
    | none =>
      rw [pairOrWait_wait copy s1 socket d (Or.inr hp)]
      exact Or.inr hp
    | some p =>
      cases hai : d.isAI with
      | true => rw [pairOrWait_ai copy s1 socket d t p ht hp hai]; exact Or.inl rfl
      | false => rw [pairOrWait_human copy s1 socket d t p ht hp hai]; exact Or.inl rfl

theorem pairOrWait_consistent (copy : Copy) (s1 : State) (socket : SocketId) (d : Draw)
    (hc : ∀ g ∈ s1.heap, g.Consistent) :
    ∀ g ∈ (pairOrWait copy s1 socket d).1.heap, g.Consistent := by
  cases ht : s1.lobby.tester with
  | none => rw [pairOrWait_wait copy s1 socket d (Or.inl ht)]; exact hc
  | some t =>
    cases hp : s1.lobby.testedPerson with
    | none => rw [pairOrWait_wait copy s1 socket d (Or.inr hp)]; exact hc
    | some p =>
      cases hai : d.isAI with
      | true =>
        rw [pairOrWait_ai copy s1 socket d t p ht hp hai]
        intro g hg
        simp only [List.mem_append, List.mem_singleton] at hg
        rcases hg with hg | rfl
        · exact hc g hg
        · rfl
      | false =>
        rw [pairOrWait_human copy s1 socket d t p ht hp hai]
        intro g hg
        simp only [List.mem_append, List.mem_singleton] at hg
        rcases hg with hg | rfl
        · exact hc g hg
        · rfl

theorem handleJoinLobby_inv (copy : Copy) (s : State) (socket : SocketId) (role : String)
    (d : Draw) (h : s.Inv) : (handleJoinLobby copy s socket role d).1.Inv := by
  obtain ⟨hv, hc, _⟩ := h
  refine ⟨handleJoinLobby_refsValid copy s socket role d hv, ?_, ?_⟩
  · apply pairOrWait_consistent
    rw [fillSlot_heap]
    exact hc
  · exact pairOrWait_lobby copy _ socket d

theorem step_inv (copy : Copy) (w : World) (i : Input) (h : w.state.Inv) :
    (step copy w i).1.state.Inv := by
  cases i with
  | joinLobby socket role draw => exact handleJoinLobby_inv copy w.state socket role draw h
  | sendMessage socket sessionId message =>
    exact handleMessage_inv w.state socket sessionId message h
  | makeGuess socket sessionId guess => exact handleGuess_inv w.state socket sessionId guess h
  | disconnect socket => exact handleDisconnect_inv w.state socket h
  | timerExpires timerId => exact timerFires_inv w.state timerId h
  | delayElapsed index =>
    simp only [step]
    split
    · split <;> exact h
    · exact h
  | generationDone index result =>
    simp only [step]
    split
    · exact resumeAfterGeneration_inv w.state _ result h
    · exact h

theorem run_inv (copy : Copy) (inputs : List Input) :
    ∀ w : World, w.state.Inv → (run copy w inputs).state.Inv := by
  induction inputs with
  | nil => intro w h; exact h
  | cons i rest ih => intro w h; exact ih _ (step_inv copy w i h)

theorem init_inv (personas : List Persona) : (State.init personas).Inv := by
  refine ⟨?_, ?_, Or.inl rfl⟩
  · intro e he
    simp [State.init] at he
  · intro g hg
    simp [State.init] at hg

theorem reachable_inv (copy : Copy) (personas : List Persona) (w : World)
    (h : Reachable copy personas w) : w.state.Inv := by
  obtain ⟨inputs, rfl⟩ := h
  exact run_inv copy inputs _ (init_inv personas)

theorem handleMessage_threw (s : State) (hc : ∀ g ∈ s.heap, g.Consistent)
    (socket : SocketId) (sessionId message : String) :
    (handleMessage s socket sessionId message).threw = false := by
  unfold handleMessage
  cases hg : lookupGame s sessionId with
  | none => rfl
  | some rg =>
    obtain ⟨ref, game⟩ := rg
    have hcon : game.Consistent :=
      hc game (List.getElem?_mem (lookupGame_eq_some s sessionId ref game hg).2)
    simp only
    split
    · rfl
    · split
      · split
        · rfl
        · rename_i hai
          cases htp : game.testedPerson with
          | some p => rfl
          | none =>
            exfalso
            unfold Game.Consistent at hcon
            rw [htp] at hcon
            cases hb : game.isAI with
            | true => exact hai hb
            | false => rw [hb] at hcon; cases hcon
      · split
        · split <;> rfl
        · rfl

theorem step_heap (copy : Copy) (w : World) (i : Input) :
    (step copy w i).1.state.heap = w.state.heap ∨
    (∃ g, (step copy w i).1.state.heap = w.state.heap ++ [g]) ∨
    (∃ ref game sender text, w.state.heap[ref]? = some game ∧
      (step copy w i).1.state.heap = w.state.heap.set ref (game.push sender text)) := by
  cases i with
  | joinLobby socket role draw =>
    simp only [step, handleJoinLobby]
    have hf := fillSlot_heap w.state socket role
    cases ht : (fillSlot w.state socket role).lobby.tester with
    | none => rw [pairOrWait_wait copy _ socket draw (Or.inl ht)]; exact Or.inl hf
    | some t =>
      cases hp : (fillSlot w.state socket role).lobby.testedPerson with
      | none => rw [pairOrWait_wait copy _ socket draw (Or.inr hp)]; exact Or.inl hf
      | some p =>
        cases hai : draw.isAI with
        | true =>
          rw [pairOrWait_ai copy _ socket draw t p ht hp hai]
          exact Or.inr (Or.inl ⟨_, by rw [hf]⟩)
        | false =>
          rw [pairOrWait_human copy _ socket draw t p ht hp hai]
          exact Or.inr (Or.inl ⟨_, by rw [hf]⟩)
  | sendMessage socket sessionId message =>
    simp only [step]
    rcases (handleMessage_frame w.state socket sessionId message).2.2.2 with
      h | ⟨ref, game, sender, hlook, h⟩
    · exact Or.inl h
    · exact Or.inr (Or.inr ⟨ref, game, sender, message,
        (lookupGame_eq_some w.state sessionId ref game hlook).2, h⟩)
  | makeGuess socket sessionId guess =>
    left
    simp only [step, handleGuess]
    split
    · rfl
    · split <;> rfl
  | disconnect socket => exact Or.inl rfl
  | timerExpires timerId =>
    left
    simp only [step, timerFires]
    split
    · simp only [handleTimerExpired]
      split <;> rfl
    · rfl
  | delayElapsed index =>
    left
    simp only [step]
    split
    · split <;> rfl
    · rfl
  | generationDone index result =>
    simp only [step]
    split
    · rename_i k request hk
      simp only [resumeAfterGeneration]
      cases result with
      | none => exact Or.inl rfl
      | some aiResponse =>
        cases hget : w.state.heap[k.game]? with
        | none => exact Or.inl rfl
        | some game => exact Or.inr (Or.inr ⟨k.game, game, "ai", aiResponse, hget, rfl⟩)
    · exact Or.inl rfl

theorem step_keeps_fields (copy : Copy) (w : World) (i : Input) (ref : GameRef) (g : Game)
    (hg : w.state.heap[ref]? = some g) :
    ∃ g2, (step copy w i).1.state.heap[ref]? = some g2 ∧
      g2.testedPerson = g.testedPerson ∧ g2.isAI = g.isAI ∧ g2.tester = g.tester := by
  have hlt : ref < w.state.heap.length := by
    rcases Nat.lt_or_ge ref w.state.heap.length with h | h
    · exact h
    · rw [List.getElem?_eq_none h] at hg
      cases hg
  rcases step_heap copy w i with h | ⟨g3, h⟩ | ⟨r, game, sender, text, hget, h⟩
  · exact ⟨g, by rw [h, hg], rfl, rfl, rfl⟩
  · exact ⟨g, by rw [h, List.getElem?_append_left hlt, hg], rfl, rfl, rfl⟩
  · by_cases hr : r = ref
    · subst hr
      rw [hg] at hget
      cases hget
      exact ⟨g.push sender text, by rw [h, List.getElem?_set_self hlt], rfl, rfl, rfl⟩
    · exact ⟨g, by rw [h, List.getElem?_set_ne hr, hg], rfl, rfl, rfl⟩

/-- C18: in every reachable world each registered session has exactly one of a present
`testedPerson` and a true `isAI`; no event changes the `testedPerson`, `isAI` or `tester`
field of a game object; and `handleMessage` never throws on an absent `testedPerson`. -/
theorem sessions_stay_consistent (copy : Copy) (personas : List Persona) (w : World)
    (h : Reachable copy personas w) :
    (∀ sessionId ref g, lookupGame w.state sessionId = some (ref, g) →
      (g.testedPerson ≠ none ∧ g.isAI = false) ∨ (g.testedPerson = none ∧ g.isAI = true)) ∧
    (∀ (i : Input) (ref : GameRef) (g : Game), w.state.heap[ref]? = some g →
      ∃ g2, (step copy w i).1.state.heap[ref]? = some g2 ∧
        g2.testedPerson = g.testedPerson ∧ g2.isAI = g.isAI ∧ g2.tester = g.tester) ∧
    (∀ socket sessionId message,
      (handleMessage w.state socket sessionId message).threw = false) := by
  obtain ⟨_, hc, _⟩ := reachable_inv copy personas w h
  refine ⟨?_, fun i ref g hg => step_keeps_fields copy w i ref g hg,
    fun socket sessionId message => handleMessage_threw w.state hc socket sessionId message⟩
  intro sessionId ref g hg
  have hcon := hc g (List.getElem?_mem (lookupGame_eq_some w.state sessionId ref g hg).2)
  unfold Game.Consistent at hcon
  cases htp : g.testedPerson with
  | none =>
    right
    rw [htp] at hcon
    cases hb : g.isAI with
    | true => exact ⟨rfl, rfl⟩
    | false => rw [hb] at hcon; cases hcon
  | some p =>
    left
    rw [htp] at hcon
    cases hb : g.isAI with
    | true => rw [hb] at hcon; cases hcon
    | false => exact ⟨by simp, rfl⟩

/-- Witness for C18: the world holding the human session of sockets 1 and 2. -/
theorem sessions_stay_consistent_witness :
    Reachable Copy.controllers [jake] { state := humanSession, suspended := [] } ∧
    (∀ socket sessionId message,
      (handleMessage humanSession socket sessionId message).threw = false) :=
  ⟨⟨humanInputs, by decide⟩,
    (sessions_stay_consistent Copy.controllers [jake]
      { state := humanSession, suspended := [] } ⟨humanInputs, by decide⟩).2.2⟩

/-- C20: after `handleJoinLobby` at least one lobby slot is empty; when the slot update
leaves tester `t` and tested person `p` in the slots, the call creates one game object,
registers it under the new session id with `t` as its tester, and empties both slots; and
in every reachable world at least one slot is empty. -/
theorem lobby_never_full (copy : Copy) (s : State) (socket : SocketId) (role : String)
    (d : Draw) :
    ((handleJoinLobby copy s socket role d).1.lobby.tester = none ∨
      (handleJoinLobby copy s socket role d).1.lobby.testedPerson = none) ∧
    (∀ t p, (fillSlot s socket role).lobby.tester = some t →
      (fillSlot s socket role).lobby.testedPerson = some p →
      (handleJoinLobby copy s socket role d).1.lobby = { tester := none, testedPerson := none } ∧
      ∃ g, (handleJoinLobby copy s socket role d).1.heap = s.heap ++ [g] ∧
        (handleJoinLobby copy s socket role d).1.activeGames =
          assignGame s.activeGames (toString d.now) s.heap.length ∧
        lookupGame (handleJoinLobby copy s socket role d).1 (toString d.now) =
          some (s.heap.length, g) ∧
        g.tester = t) ∧
    (∀ personas w, Reachable copy personas w →
      w.state.lobby.tester = none ∨ w.state.lobby.testedPerson = none) := by
  refine ⟨pairOrWait_lobby copy _ socket d, ?_,
    fun personas w h => (reachable_inv copy personas w h).2.2⟩
  intro t p ht hp
  have hh := fillSlot_heap s socket role
  have ha := fillSlot_activeGames s socket role
  unfold handleJoinLobby
  cases hai : d.isAI with
  | true =>
    rw [pairOrWait_ai copy _ socket d t p ht hp hai]
    refine ⟨rfl, _, by rw [hh], by rw [hh, ha], ?_, rfl⟩
    rw [← hh]
    exact lookupGame_assign (fillSlot s socket role) (toString d.now) _ _ rfl rfl
  | false =>
    rw [pairOrWait_human copy _ socket d t p ht hp hai]
    refine ⟨rfl, _, by rw [hh], by rw [hh, ha], ?_, rfl⟩
    rw [← hh]
    exact lookupGame_assign (fillSlot s socket role) (toString d.now) _ _ rfl rfl

/-- Witness for C20: the join of socket 2 that completes the human pairing. -/
theorem lobby_never_full_witness :
    (fillSlot (runJoins Copy.controllers (State.init [jake]) (humanJoins.take 1)) 2
      "testedPerson").lobby.tester = some (Participant.ofSocket 1) ∧
    (handleJoinLobby Copy.controllers
      (runJoins Copy.controllers (State.init [jake]) (humanJoins.take 1)) 2 "testedPerson"
      { isAI := false, pick := 0, now := 5 }).1.lobby =
      { tester := none, testedPerson := none } :=
  ⟨by decide,
    ((lobby_never_full Copy.controllers
      (runJoins Copy.controllers (State.init [jake]) (humanJoins.take 1)) 2 "testedPerson"
      { isAI := false, pick := 0, now := 5 }).2.1 (Participant.ofSocket 1)
      (Participant.ofSocket 2) (by decide) (by decide)).1⟩

/-! ## Session identifiers -/

theorem lookup_filter_ne (m : List (String × GameRef)) (sessionId other : String)
    (hne : other ≠ sessionId) :
    (m.filter (fun e => e.1 != sessionId)).lookup other = m.lookup other := by
  induction m with
  | nil => rfl
  | cons e m ih =>
    obtain ⟨key, ref⟩ := e
    by_cases hk : key = sessionId
    · subst hk
      have hb : (other == key) = false := by simpa using hne
      simp only [List.filter_cons, bne_self_eq_false, Bool.false_eq_true, if_false,
        List.lookup_cons, hb, ih]
    · by_cases ho : other = key
      · simp [List.filter_cons, hk, List.lookup_cons, ho]
      · have hb : (other == key) = false := by simpa using ho
        simp [List.filter_cons, hk, List.lookup_cons, hb, ih]

theorem keys_filter_nodup (m : List (String × GameRef)) (p : String × GameRef → Bool)
    (h : (m.map Prod.fst).Nodup) : ((m.filter p).map Prod.fst).Nodup :=
  List.Nodup.sublist (List.Sublist.map Prod.fst (List.filter_sublist m)) h

theorem keys_assign_nodup (m : List (String × GameRef)) (sessionId : String) (ref : GameRef)
    (h : (m.map Prod.fst).Nodup) : ((assignGame m sessionId ref).map Prod.fst).Nodup := by
  simp only [assignGame, List.map_cons, List.nodup_cons]
  refine ⟨?_, keys_filter_nodup m _ h⟩
  intro hmem
  obtain ⟨e, he, hk⟩ := List.mem_map.mp hmem
  have := (List.mem_filter.mp he).2
  simp [hk] at this

theorem step_keys_nodup (copy : Copy) (w : World) (i : Input)
    (h : (w.state.activeGames.map Prod.fst).Nodup) :
    ((step copy w i).1.state.activeGames.map Prod.fst).Nodup := by
  cases i with
  | joinLobby socket role draw =>
    simp only [step, handleJoinLobby]
    have ha := fillSlot_activeGames w.state socket role
    cases ht : (fillSlot w.state socket role).lobby.tester with
    | none => rw [pairOrWait_wait copy _ socket draw (Or.inl ht), ha]; exact h
    | some t =>
      cases hp : (fillSlot w.state socket role).lobby.testedPerson with
      | none => rw [pairOrWait_wait copy _ socket draw (Or.inr hp), ha]; exact h
      | some p =>
        cases hai : draw.isAI with
        | true =>
          rw [pairOrWait_ai copy _ socket draw t p ht hp hai]
          simp only [ha]
          exact keys_assign_nodup _ _ _ h
        | false =>
          rw [pairOrWait_human copy _ socket draw t p ht hp hai]
          simp only [ha]
          exact keys_assign_nodup _ _ _ h
  | sendMessage socket sessionId message =>
    simp only [step]
    rw [(handleMessage_frame w.state socket sessionId message).2.2.1]
    exact h
  | makeGuess socket sessionId guess =>
    simp only [step, handleGuess]
    split
    · exact h
    · split
      · exact h
      · exact keys_filter_nodup _ _ h
  | disconnect socket => exact h
  | timerExpires timerId =>
    simp only [step, timerFires]
    split
    · simp only [handleTimerExpired]
      split
      · exact keys_filter_nodup _ _ h
      · exact h
    · exact h
  | delayElapsed index =>
    simp only [step]
    split
    · split <;> exact h
    · exact h
  | generationDone index result =>
    simp only [step]
    split
    · simp only [resumeAfterGeneration]
      split
      · split <;> exact h
      · exact h
    · exact h

theorem run_keys_nodup (copy : Copy) (inputs : List Input) :
    ∀ w : World, (w.state.activeGames.map Prod.fst).Nodup →
      ((run copy w inputs).state.activeGames.map Prod.fst).Nodup := by
  induction inputs with
  | nil => intro w h; exact h
  | cons i rest ih => intro w h; exact ih _ (step_keys_nodup copy w i h)

theorem handleJoinLobby_keeps_other_sessions (copy : Copy) (s : State) (socket : SocketId)
    (role : String) (d : Draw) (sessionId : String) (ref : GameRef) (g : Game)
    (hne : sessionId ≠ toString d.now) (hg : lookupGame s sessionId = some (ref, g)) :
    lookupGame (handleJoinLobby copy s socket role d).1 sessionId = some (ref, g) := by
  obtain ⟨hl, hget⟩ := lookupGame_eq_some s sessionId ref g hg
  have hlt : ref < s.heap.length := by
    rcases Nat.lt_or_ge ref s.heap.length with h | h
    · exact h
    · rw [List.getElem?_eq_none h] at hget
      cases hget
  have hh := fillSlot_heap s socket role
  have ha := fillSlot_activeGames s socket role
  have hpaired : ∀ (s2 : State) (g2 : Game), s2.heap = (fillSlot s socket role).heap ++ [g2] →
      s2.activeGames = assignGame (fillSlot s socket role).activeGames (toString d.now)
        (fillSlot s socket role).heap.length →
      lookupGame s2 sessionId = some (ref, g) := by
    intro s2 g2 h1 h2
    have hb : (sessionId == toString d.now) = false := by simpa using hne
    simp only [lookupGame, h1, h2, assignGame, List.lookup_cons, hb,
      lookup_filter_ne _ _ _ hne, ha, hl, hh, List.getElem?_append_left hlt, hget]
  unfold handleJoinLobby
  cases ht : (fillSlot s socket role).lobby.tester with
  | none =>
    rw [pairOrWait_wait copy _ socket d (Or.inl ht)]
    simp only [lookupGame, ha, hh, hl, hget]
  | some t =>
    cases hp : (fillSlot s socket role).lobby.testedPerson with
    | none =>
      rw [pairOrWait_wait copy _ socket d (Or.inr hp)]
      simp only [lookupGame, ha, hh, hl, hget]
    | some p =>
      cases hai : d.isAI with
      | true =>
        rw [pairOrWait_ai copy _ socket d t p ht hp hai]
        exact hpaired _ _ rfl rfl
      | false =>
        rw [pairOrWait_human copy _ socket d t p ht hp hai]
        exact hpaired _ _ rfl rfl

/-- C19 (as stated, refuted): session "5" of sockets 1 and 2 is live, socket 3 waits as
tester, and socket 4 joins as tested person while the clock reads 5 again; the pairing
allocates the id "5" once more and the registration replaces the live session. -/
theorem clock_collision_replaces_live_session :
    lookupGame humanTesterWaiting "5" = some (0, humanGame) ∧
    (lookupGame (handleJoinLobby Copy.controllers humanTesterWaiting 4 "testedPerson"
      { isAI := false, pick := 0, now := 5 }).1 "5").map (fun x => (x.1, x.2.tester.id)) =
      some (1, 3) ∧
    (handleJoinLobby Copy.controllers humanTesterWaiting 4 "testedPerson"
      { isAI := false, pick := 0, now := 5 }).1.activeGames = [("5", 1)] := by
  decide

/-- C19 (amended): when the decimal string of the clock value is not the id of a live
session, the id allocated by a pairing differs from every live id and every live session
stays registered with the same game object; and in every reachable world no two
registry entries share an id. -/
theorem fresh_clock_keeps_live_sessions (copy : Copy) (s : State) (socket : SocketId)
    (role : String) (d : Draw) (hfresh : lookupGame s (toString d.now) = none) :
    (∀ sessionId ref g, lookupGame s sessionId = some (ref, g) →
      sessionId ≠ toString d.now ∧
      lookupGame (handleJoinLobby copy s socket role d).1 sessionId = some (ref, g)) ∧
    (∀ personas w, Reachable copy personas w →
      (w.state.activeGames.map Prod.fst).Nodup) := by
  constructor
  · intro sessionId ref g hg
    have hne : sessionId ≠ toString d.now := by
      intro h
      rw [h, hfresh] at hg
      cases hg
    exact ⟨hne, handleJoinLobby_keeps_other_sessions copy s socket role d sessionId ref g hne hg⟩
  · intro personas w hw
    obtain ⟨inputs, rfl⟩ := hw
    exact run_keys_nodup copy inputs _ (by simp [World.init, State.init])

/-- Witness for C19 (amended): the same join of socket 4 with the clock reading 6. -/
theorem fresh_clock_keeps_live_sessions_witness :
    lookupGame humanTesterWaiting (toString 6) = none ∧
    lookupGame humanTesterWaiting "5" = some (0, humanGame) ∧
    lookupGame (handleJoinLobby Copy.controllers humanTesterWaiting 4 "testedPerson"
      { isAI := false, pick := 0, now := 6 }).1 "5" = some (0, humanGame) :=
  ⟨by decide, by decide,
    ((fresh_clock_keeps_live_sessions Copy.controllers humanTesterWaiting 4 "testedPerson"
      { isAI := false, pick := 0, now := 6 } (by decide)).1 "5" 0 humanGame (by decide)).2⟩

/-! ## Removed sessions stay removed -/

theorem lookup_filter_none (m : List (String × GameRef)) (p : String × GameRef → Bool)
    (sessionId : String) (h : m.lookup sessionId = none) :
    (m.filter p).lookup sessionId = none := by
  induction m with
  | nil => rfl
  | cons e m ih =>
    obtain ⟨key, ref⟩ := e
    by_cases hk : sessionId = key
    · subst hk
      simp [List.lookup_cons] at h
    · have hb : (sessionId == key) = false := by simpa using hk
      simp only [List.lookup_cons, hb] at h
      by_cases hp : p (key, ref) = true
      · simp only [List.filter_cons_of_pos hp, List.lookup_cons, hb]
        exact ih h
      · simp only [List.filter_cons_of_neg hp]
        exact ih h

theorem step_keeps_unregistered (copy : Copy) (w : World) (i : Input) (sessionId : String)
    (hi : i.mayAllocate sessionId = false)
    (h : w.state.activeGames.lookup sessionId = none) :
    (step copy w i).1.state.activeGames.lookup sessionId = none := by
  cases i with
  | joinLobby socket role draw =>
    have hne : ¬ sessionId = toString draw.now := by
      intro heq
      simp [Input.mayAllocate, heq] at hi
    have hb : (sessionId == toString draw.now) = false := by simpa using hne
    simp only [step, handleJoinLobby]
    have ha := fillSlot_activeGames w.state socket role
    cases ht : (fillSlot w.state socket role).lobby.tester with
    | none => rw [pairOrWait_wait copy _ socket draw (Or.inl ht), ha]; exact h
    | some t =>
      cases hp : (fillSlot w.state socket role).lobby.testedPerson with
      | none => rw [pairOrWait_wait copy _ socket draw (Or.inr hp), ha]; exact h
      | some p =>
        cases hai : draw.isAI with
        | true =>
          rw [pairOrWait_ai copy _ socket draw t p ht hp hai]
          simp only [ha, assignGame, List.lookup_cons, hb]
          exact lookup_filter_none _ _ _ h
        | false =>
          rw [pairOrWait_human copy _ socket draw t p ht hp hai]
          simp only [ha, assignGame, List.lookup_cons, hb]
          exact lookup_filter_none _ _ _ h
  | sendMessage socket sid message =>
    simp only [step]
    rw [(handleMessage_frame w.state socket sid message).2.2.1]
    exact h
  | makeGuess socket sid guess =>
    simp only [step, handleGuess]
    split
    · exact h
    · split
      · exact h
      · exact lookup_filter_none _ _ _ h
  | disconnect socket => exact h
  | timerExpires timerId =>
    simp only [step, timerFires]
    split
    · simp only [handleTimerExpired]
      split
      · exact lookup_filter_none _ _ _ h
      · exact h
    · exact h
  | delayElapsed index =>
    simp only [step]
    split
    · split <;> exact h
    · exact h
  | generationDone index result =>
    simp only [step]
    split
    · simp only [resumeAfterGeneration]
      split
      · split <;> exact h
      · exact h
    · exact h

theorem run_keeps_unregistered (copy : Copy) (sessionId : String) (inputs : List Input) :
    ∀ w : World, (∀ i ∈ inputs, i.mayAllocate sessionId = false) →
      w.state.activeGames.lookup sessionId = none →
      lookupGame (run copy w inputs).state sessionId = none := by
  induction inputs with
  | nil =>
    intro w _ h
    simp only [run, lookupGame, h]
  | cons i rest ih =>
    intro w hi h
    exact ih _ (fun j hj => hi j (List.mem_cons_of_mem _ hj))
      (step_keeps_unregistered copy w i sessionId (hi i (List.mem_cons_self _ _)) h)

/-! ## Ending a session -/

theorem handleMessage_not_found (s : State) (socket : SocketId) (sessionId message : String)
    (h : lookupGame s sessionId = none) :
    handleMessage s socket sessionId message =
      { state := s
        emitted := [(socket, Event.error "Session not found. Please start a new session.")]
        pending := none, threw := false } := by
  simp [handleMessage, h]

theorem handleGuess_not_found (s : State) (socket : SocketId) (sessionId guess : String)
    (h : lookupGame s sessionId = none) :
    handleGuess s socket sessionId guess =
      (s, [(socket, Event.error "Session not found. Please start a new session.")]) := by
  simp [handleGuess, h]

theorem handleTimerExpired_not_found (s : State) (sessionId : String)
    (h : lookupGame s sessionId = none) : handleTimerExpired s sessionId = (s, []) := by
  simp [handleTimerExpired, h]

/-- C15: a guess by the tester of a registered session clears the session's timer, emits
`gameEnd` with reason 'guess' and the computed `isCorrect` to the tester and to the tested
person if there is one, then `gameComplete` to every member of the waiting queue and
nothing else, and removes the session: on the resulting state `handleMessage` and
`handleGuess` with that id answer 'Session not found' and change nothing, and an expiry
for that id or of the session's timer changes nothing and emits nothing; the id stays
unregistered along every sequence of events in which no join reads a clock value with
that decimal string. -/
theorem guess_ends_session (s : State) (sessionId guess : String) (ref : GameRef)
    (game : Game) (hgame : lookupGame s sessionId = some (ref, game)) :
    (handleGuess s game.tester.id sessionId guess).1.timers =
      s.timers.filter (fun t => t.1 != game.timerId) ∧
    (∃ testerMessage testedPersonMessage,
      (handleGuess s game.tester.id sessionId guess).2 =
        [(game.tester.socket, Event.gameEnd "guess" (some testerMessage)
            (some (isCorrect guess game.isAI)))]
          ++ (match game.testedPerson with
              | some p => [(p.socket, Event.gameEnd "guess" (some testedPersonMessage)
                  (some (isCorrect guess game.isAI)))]
              | none => [])
          ++ s.waitingQueue.map (fun q =>
              (q.socket, Event.gameComplete "A game has ended. Trying to find you a match..."))) ∧
    lookupGame (handleGuess s game.tester.id sessionId guess).1 sessionId = none ∧
    (∀ socket text,
      handleMessage (handleGuess s game.tester.id sessionId guess).1 socket sessionId text =
        { state := (handleGuess s game.tester.id sessionId guess).1
          emitted := [(socket, Event.error "Session not found. Please start a new session.")]
          pending := none, threw := false }) ∧
    (∀ socket later,
      handleGuess (handleGuess s game.tester.id sessionId guess).1 socket sessionId later =
        ((handleGuess s game.tester.id sessionId guess).1,
          [(socket, Event.error "Session not found. Please start a new session.")])) ∧
    handleTimerExpired (handleGuess s game.tester.id sessionId guess).1 sessionId =
      ((handleGuess s game.tester.id sessionId guess).1, []) ∧
    timerFires (handleGuess s game.tester.id sessionId guess).1 game.timerId =
      ((handleGuess s game.tester.id sessionId guess).1, []) ∧
    (∀ (copy : Copy) (suspended : List Suspended) (inputs : List Input),
      (∀ i ∈ inputs, i.mayAllocate sessionId = false) →
      lookupGame (run copy
        { state := (handleGuess s game.tester.id sessionId guess).1, suspended := suspended }
        inputs).state sessionId = none) := by
  have hnone : lookupGame (handleGuess s game.tester.id sessionId guess).1 sessionId = none := by
    rw [handleGuess_by_tester s sessionId guess ref game hgame]
    simp only [lookupGame, lookup_deleteGame]
  refine ⟨?_, ?_, hnone, fun socket text => handleMessage_not_found _ socket sessionId text hnone,
    fun socket later => handleGuess_not_found _ socket sessionId later hnone,
    handleTimerExpired_not_found _ sessionId hnone, ?_, ?_⟩
  · rw [handleGuess_by_tester s sessionId guess ref game hgame]
    rfl
  · rw [handleGuess_by_tester s sessionId guess ref game hgame]
    exact ⟨_, _, rfl⟩
  · rw [handleGuess_by_tester s sessionId guess ref game hgame]
    simp only [timerFires, clearTimeout, find?_filter_ne]
  · intro copy suspended inputs hin
    apply run_keeps_unregistered copy sessionId inputs _ hin
    rw [handleGuess_by_tester s sessionId guess ref game hgame]
    exact lookup_deleteGame _ _

/-- Witness for C15: tester 1 of the human session guesses 'human'. -/
theorem guess_ends_session_witness :
    lookupGame humanAfterHi "5" = some (0, humanGameHi) ∧
    lookupGame (handleGuess humanAfterHi humanGameHi.tester.id "5" "human").1 "5" = none :=
  ⟨by decide, (guess_ends_session humanAfterHi "5" "human" 0 humanGameHi (by decide)).2.2.1⟩

/-- C16: for a registered session id, `handleTimerExpired` emits `gameEnd` with reason
'timeout' to the tester, to the tested person exactly when there is one, then
`gameComplete` to every member of the waiting queue and nothing else; it removes that
session and leaves every other session, the lobby, the queue, the heap and the timers as
they were; afterwards `handleMessage` and `handleGuess` with that id answer 'Session not
found'. -/
theorem timeout_ends_session (s : State) (sessionId : String) (ref : GameRef) (game : Game)
    (hgame : lookupGame s sessionId = some (ref, game)) :
    (handleTimerExpired s sessionId).2 =
      [(game.tester.socket, Event.gameEnd "timeout" none none)]
        ++ (match game.testedPerson with
            | some p => [(p.socket, Event.gameEnd "timeout" none none)]
            | none => [])
        ++ s.waitingQueue.map (fun q =>
            (q.socket, Event.gameComplete "A game has ended. Trying to find you a match...")) ∧
    lookupGame (handleTimerExpired s sessionId).1 sessionId = none ∧
    (∀ other, other ≠ sessionId →
      lookupGame (handleTimerExpired s sessionId).1 other = lookupGame s other) ∧
    (handleTimerExpired s sessionId).1.lobby = s.lobby ∧
    (handleTimerExpired s sessionId).1.waitingQueue = s.waitingQueue ∧
    (handleTimerExpired s sessionId).1.heap = s.heap ∧
    (handleTimerExpired s sessionId).1.timers = s.timers ∧
    (∀ socket text,
      (handleMessage (handleTimerExpired s sessionId).1 socket sessionId text).emitted =
        [(socket, Event.error "Session not found. Please start a new session.")]) ∧
    (∀ socket guess,
      (handleGuess (handleTimerExpired s sessionId).1 socket sessionId guess).2 =
        [(socket, Event.error "Session not found. Please start a new session.")]) := by
  have hr : handleTimerExpired s sessionId =
      ({ s with activeGames := deleteGame s.activeGames sessionId },
        [(game.tester.socket, Event.gameEnd "timeout" none none)]
          ++ (match game.testedPerson with
              | some p => [(p.socket, Event.gameEnd "timeout" none none)]
              | none => [])
          ++ notifyWaitingPlayers s) := by
    simp only [handleTimerExpired, hgame]
  have hnone : lookupGame (handleTimerExpired s sessionId).1 sessionId = none := by
    rw [hr]
    simp only [lookupGame, lookup_deleteGame]
  refine ⟨by rw [hr]; rfl, hnone, ?_, by rw [hr], by rw [hr], by rw [hr], by rw [hr], ?_, ?_⟩
  · intro other hne
    rw [hr]
    simp only [lookupGame, deleteGame, lookup_filter_ne _ _ _ hne]
  · intro socket text
    rw [handleMessage_not_found _ socket sessionId text hnone]
  · intro socket guess
    rw [handleGuess_not_found _ socket sessionId guess hnone]

/-- Witness for C16: the timer of the human session expires. -/
theorem timeout_ends_session_witness :
    lookupGame humanSession "5" = some (0, humanGame) ∧
    (handleTimerExpired humanSession "5").2 =
      [(humanGame.tester.socket, Event.gameEnd "timeout" none none)]
        ++ (match humanGame.testedPerson with
            | some p => [(p.socket, Event.gameEnd "timeout" none none)]
            | none => [])
        ++ humanSession.waitingQueue.map (fun q =>
            (q.socket, Event.gameComplete "A game has ended. Trying to find you a match...")) :=
  ⟨by decide, (timeout_ends_session humanSession "5" 0 humanGame (by decide)).1⟩

/-! ## Turn taking -/

/-- C17 (as stated, refuted): socket 1 is both tester and tested person of session "5",
whose log is non-empty; its message "y" is logged under the tag 'tester', relayed to
socket 1 as `newMessage`, and no `gameEnd` with reason 'readyToGuess' is emitted. -/
theorem self_paired_reply_is_not_a_reply :
    (lookupGame selfPairedLogged "5").map
        (fun x => (x.2.tester.id, x.2.testedPerson, x.2.isAI, x.2.messages)) =
      some (1, some (Participant.ofSocket 1), false,
        [{ sender := "tested_person", text := "x" }]) ∧
    (handleMessage selfPairedLogged 1 "5" "y").emitted =
      [(1, Event.newMessage "tested_person" "y")] ∧
    (lookupGame (handleMessage selfPairedLogged 1 "5" "y").state "5").map
        (fun x => x.2.messages) =
      some [{ sender := "tested_person", text := "x" }, { sender := "tester", text := "y" }] ∧
    (1, readyTester) ∉ (handleMessage selfPairedLogged 1 "5" "y").emitted := by
  decide

/-- C17 (amended): when the tested person of a session, a connection other than its
tester, sends text on a non-empty log, `handleMessage` appends the entry tagged
'tested_person', emits `newMessage` with sender 'tested_person' and that text to the
tester, then `gameEnd` with reason 'readyToGuess' to the tester and to the tested person,
and nothing else; the session stays registered. -/
theorem reply_unlocks_guess (s : State) (sessionId text : String) (ref : GameRef)
    (game : Game) (p : Participant) (hgame : lookupGame s sessionId = some (ref, game))
    (hp : game.testedPerson = some p) (hne : p.id ≠ game.tester.id)
    (hlog : game.messages ≠ []) :
    (handleMessage s p.id sessionId text).emitted =
      [(game.tester.socket, Event.newMessage "tested_person" text),
       (game.tester.socket, Event.gameEnd "readyToGuess" (some "Time to make your guess!") none),
       (p.socket, Event.gameEnd "readyToGuess" (some "The tester is making their guess...")
          none)] ∧
    lookupGame (handleMessage s p.id sessionId text).state sessionId =
      some (ref, { game with
        messages := game.messages ++ [{ sender := "tested_person", text := text }] }) := by
  obtain ⟨hl, hh⟩ := lookupGame_eq_some s sessionId ref game hgame
  have hlt : ref < s.heap.length := by
    rcases Nat.lt_or_ge ref s.heap.length with h | h
    · exact h
    · rw [List.getElem?_eq_none h] at hh
      cases hh
  rw [handleMessage_testedPerson s sessionId text ref game p hgame hp hne hlog]
  refine ⟨rfl, ?_⟩
  simp [lookupGame, clearTimeout, hl, List.getElem?_set_self hlt, Game.push]

/-- Witness for C17 (amended): tested person 2 answers "hello" in the human session. -/
theorem reply_unlocks_guess_witness :
    lookupGame humanAfterHi "5" = some (0, humanGameHi) ∧
    (handleMessage humanAfterHi (Participant.ofSocket 2).id "5" "hello").emitted =
      [(humanGameHi.tester.socket, Event.newMessage "tested_person" "hello"),
       (humanGameHi.tester.socket,
          Event.gameEnd "readyToGuess" (some "Time to make your guess!") none),
       ((Participant.ofSocket 2).socket,
          Event.gameEnd "readyToGuess" (some "The tester is making their guess...") none)] :=
  ⟨by decide,
    (reply_unlocks_guess humanAfterHi "5" "hello" 0 humanGameHi (Participant.ofSocket 2)
      (by decide) (by decide) (by decide) (by decide)).1⟩

/-- C12 (code defect): a message of tested person 2 on the empty log of the human session
is refused with the out-of-turn error and changes nothing; but the message of socket 3,
which takes no part in the session, is logged before it is refused, so the reachable
state `humanAfterStranger` has a log that begins with an entry tagged 'tested_person'. -/
theorem log_can_begin_with_tested_person :
    handleMessage humanSession 2 "5" "hello" =
      { state := humanSession
        emitted := [(2, Event.error "Please wait for the Tester to ask the first question.")]
        pending := none, threw := false } ∧
    run Copy.controllers (World.init [jake]) (humanInputs ++ [Input.sendMessage 3 "5" "x"]) =
      { state := humanAfterStranger, suspended := [] } ∧
    (lookupGame humanAfterStranger "5").map (fun x => x.2.messages.head?.map (fun m => m.sender)) =
      some (some "tested_person") := by
  decide

/-! ## The waiting queue -/

theorem step_lobby_queue (copy : Copy) (w : World) (i : Input)
    (hj : ∀ socket role draw, i ≠ Input.joinLobby socket role draw)
    (hd : ∀ socket, i ≠ Input.disconnect socket) :
    (step copy w i).1.state.lobby = w.state.lobby ∧
    (step copy w i).1.state.waitingQueue = w.state.waitingQueue := by
  cases i with
  | joinLobby socket role draw => exact absurd rfl (hj socket role draw)
  | sendMessage socket sessionId message =>
    exact ⟨(handleMessage_frame w.state socket sessionId message).1,
      (handleMessage_frame w.state socket sessionId message).2.1⟩
  | makeGuess socket sessionId guess =>
    simp only [step, handleGuess]
    split
    · exact ⟨rfl, rfl⟩
    · split <;> exact ⟨rfl, rfl⟩
  | disconnect socket => exact absurd rfl (hd socket)
  | timerExpires timerId =>
    simp only [step, timerFires]
    split
    · simp only [handleTimerExpired]
      split <;> exact ⟨rfl, rfl⟩
    · exact ⟨rfl, rfl⟩
  | delayElapsed index =>
    simp only [step]
    split
    · split <;> exact ⟨rfl, rfl⟩
    · exact ⟨rfl, rfl⟩
  | generationDone index result =>
    simp only [step]
    split
    · simp only [resumeAfterGeneration]
      split
      · split <;> exact ⟨rfl, rfl⟩
      · exact ⟨rfl, rfl⟩
    · exact ⟨rfl, rfl⟩

theorem fillSlot_queueInv (s : State) (socket : SocketId) (role : String)
    (h : s.QueueInv) : (fillSlot s socket role).QueueInv := by
  obtain ⟨hlen, hocc⟩ := h
  unfold fillSlot
  split
  · exact ⟨hlen, hocc⟩
  · split
    · rename_i head rest hq
      rw [hq] at hlen
      have hrest : rest = [] := by
        cases rest with
        | nil => rfl
        | cons a l => simp at hlen
      exact ⟨by simp [hrest], fun _ => hrest⟩
    · rename_i hq
      exact ⟨by simp [hq], fun _ => hq⟩

theorem pairOrWait_queueInv (copy : Copy) (s1 : State) (socket : SocketId) (d : Draw)
    (h : s1.QueueInv) : (pairOrWait copy s1 socket d).1.QueueInv := by
  obtain ⟨hlen, hocc⟩ := h
  cases ht : s1.lobby.tester with
  | none => rw [pairOrWait_wait copy s1 socket d (Or.inl ht)]; exact ⟨hlen, hocc⟩
  | some t =>
    cases hp : s1.lobby.testedPerson with
    | none => rw [pairOrWait_wait copy s1 socket d (Or.inr hp)]; exact ⟨hlen, hocc⟩
    | some p =>
      have hq : s1.waitingQueue = [] := hocc (by simp [hp])
      cases hai : d.isAI with
      | true =>
        rw [pairOrWait_ai copy s1 socket d t p ht hp hai]
        exact ⟨by simp [hq], fun hne => absurd rfl hne⟩
      | false =>
        rw [pairOrWait_human copy s1 socket d t p ht hp hai]
        exact ⟨hlen, fun hne => absurd rfl hne⟩

theorem handleDisconnect_queueInv (s : State) (socket : SocketId) (h : s.QueueInv) :
    (handleDisconnect s socket).QueueInv := by
  obtain ⟨hlen, hocc⟩ := h
  have hq : s.waitingQueue = [] ∨ ∃ q, s.waitingQueue = [q] := by
    cases hw : s.waitingQueue with
    | nil => exact Or.inl rfl
    | cons a l =>
      rw [hw] at hlen
      cases l with
      | nil => exact Or.inr ⟨a, rfl⟩
      | cons b l2 => simp at hlen
  have hsub : (handleDisconnect s socket).waitingQueue.length ≤ 1 ∧
      (s.waitingQueue = [] → (handleDisconnect s socket).waitingQueue = []) := by
    simp only [handleDisconnect]
    rcases hq with hq | ⟨q, hq⟩
    · simp [hq]
    · rw [hq]
      by_cases hs : q.socket = socket
      · simp [List.findIdx?_cons, hs]
      · simp [List.findIdx?_cons, hs]
  refine ⟨hsub.1, ?_⟩
  intro hne
  apply hsub.2
  apply hocc
  intro hnone
  apply hne
  simp only [handleDisconnect, hnone]

theorem step_queueInv (copy : Copy) (w : World) (i : Input) (h : w.state.QueueInv) :
    (step copy w i).1.state.QueueInv := by
  by_cases hj : ∃ socket role draw, i = Input.joinLobby socket role draw
  · obtain ⟨socket, role, draw, rfl⟩ := hj
    exact pairOrWait_queueInv copy _ socket draw (fillSlot_queueInv w.state socket role h)
  · by_cases hd : ∃ socket, i = Input.disconnect socket
    · obtain ⟨socket, rfl⟩ := hd
      exact handleDisconnect_queueInv w.state socket h
    · have hf := step_lobby_queue copy w i
        (fun socket role draw heq => hj ⟨socket, role, draw, heq⟩)
        (fun socket heq => hd ⟨socket, heq⟩)
      unfold State.QueueInv
      rw [hf.1, hf.2]
      exact h

theorem run_queueInv (copy : Copy) (inputs : List Input) :
    ∀ w : World, w.state.QueueInv → (run copy w inputs).state.QueueInv := by
  induction inputs with
  | nil => intro w h; exact h
  | cons i rest ih => intro w h; exact ih _ (step_queueInv copy w i h)

theorem reachable_queueInv (copy : Copy) (personas : List Persona) (w : World)
    (h : Reachable copy personas w) : w.state.QueueInv := by
  obtain ⟨inputs, rfl⟩ := h
  exact run_queueInv copy inputs _ ⟨by simp [World.init, State.init], fun _ => rfl⟩

/-- C25: in every reachable world the waiting queue holds at most one participant, and
it is empty whenever the tested-person lobby slot is occupied. -/
theorem queue_holds_at_most_one (copy : Copy) (personas : List Persona) (w : World)
    (h : Reachable copy personas w) :
    w.state.waitingQueue.length ≤ 1 ∧
    (w.state.lobby.testedPerson ≠ none → w.state.waitingQueue = []) :=
  reachable_queueInv copy personas w h

/-- Witness for C25: the world holding the AI session, with socket 2 in the queue. -/
theorem queue_holds_at_most_one_witness :
    Reachable Copy.controllers [jake] { state := aiSession, suspended := [] } ∧
    aiSession.waitingQueue = [Participant.ofSocket 2] ∧
    aiSession.waitingQueue.length ≤ 1 :=
  ⟨⟨aiInputs, by decide⟩, by decide,
    (queue_holds_at_most_one Copy.controllers [jake] { state := aiSession, suspended := [] }
      ⟨aiInputs, by decide⟩).1⟩

/-- C21: in every reachable world the disconnect of connection `c` leaves the registry,
the game objects with their logs, and the timers unchanged, so every session reads as
before; afterwards `c` holds no lobby slot and is not in the waiting queue, a slot held by
another connection keeps its occupant, and the queue is the earlier one without `c`, the
other entries in their order. -/
theorem disconnect_only_leaves_lobby_and_queue (copy : Copy) (personas : List Persona)
    (w : World) (h : Reachable copy personas w) (c : SocketId) :
    (handleDisconnect w.state c).activeGames = w.state.activeGames ∧
    (handleDisconnect w.state c).heap = w.state.heap ∧
    (handleDisconnect w.state c).timers = w.state.timers ∧
    (∀ sessionId, lookupGame (handleDisconnect w.state c) sessionId =
      lookupGame w.state sessionId) ∧
    (∀ p, (handleDisconnect w.state c).lobby.tester = some p → p.socket ≠ c) ∧
    (∀ p, (handleDisconnect w.state c).lobby.testedPerson = some p → p.socket ≠ c) ∧
    (∀ q ∈ (handleDisconnect w.state c).waitingQueue, q.socket ≠ c) ∧
    (∀ p, w.state.lobby.tester = some p → p.socket ≠ c →
      (handleDisconnect w.state c).lobby.tester = some p) ∧
    (∀ p, w.state.lobby.testedPerson = some p → p.socket ≠ c →
      (handleDisconnect w.state c).lobby.testedPerson = some p) ∧
    (handleDisconnect w.state c).waitingQueue =
      w.state.waitingQueue.filter (fun q => q.socket != c) := by
  have hlen := (reachable_queueInv copy personas w h).1
  have hqueue : (handleDisconnect w.state c).waitingQueue =
      w.state.waitingQueue.filter (fun q => q.socket != c) := by
    simp only [handleDisconnect]
    cases hw : w.state.waitingQueue with
    | nil => rfl
    | cons a l =>
      rw [hw] at hlen
      cases l with
      | cons b l2 => simp at hlen
      | nil =>
        by_cases hs : a.socket = c
        · simp [List.findIdx?_cons, hs]
        · simp [List.findIdx?_cons, hs]
  refine ⟨rfl, rfl, rfl, fun _ => rfl, ?_, ?_, ?_, ?_, ?_, hqueue⟩
  · intro p hp
    simp only [handleDisconnect] at hp
    cases ht : w.state.lobby.tester with
    | none => simp [ht] at hp
    | some t =>
      by_cases hs : t.socket = c
      · simp [ht, hs] at hp
      · simp only [ht, hs, if_false, Option.some.injEq] at hp
        rw [← hp]
        exact hs
  · intro p hp
    simp only [handleDisconnect] at hp
    cases ht : w.state.lobby.testedPerson with
    | none => simp [ht] at hp
    | some t =>
      by_cases hs : t.socket = c
      · simp [ht, hs] at hp
      · simp only [ht, hs, if_false, Option.some.injEq] at hp
        rw [← hp]
        exact hs
  · intro q hq
    rw [hqueue] at hq
    simpa using (List.mem_filter.mp hq).2
  · intro p hp hne
    simp only [handleDisconnect, hp, hne, if_false]
  · intro p hp hne
    simp only [handleDisconnect, hp, hne, if_false]

/-- Witness for C21: socket 2, queued behind the AI session, disconnects. -/
theorem disconnect_only_leaves_lobby_and_queue_witness :
    Reachable Copy.controllers [jake] { state := aiSession, suspended := [] } ∧
    aiSession.waitingQueue = [Participant.ofSocket 2] ∧
    (handleDisconnect aiSession 2).waitingQueue =
      aiSession.waitingQueue.filter (fun q => q.socket != 2) ∧
    (handleDisconnect aiSession 2).waitingQueue = [] :=
  ⟨⟨aiInputs, by decide⟩, by decide,
    (disconnect_only_leaves_lobby_and_queue Copy.controllers [jake]
      { state := aiSession, suspended := [] } ⟨aiInputs, by decide⟩ 2).2.2.2.2.2.2.2.2.2,
    by decide⟩

theorem step_queue_fifo (copy : Copy) (w : World) (i : Input) :
    (dequeuedBy w.state i ++ (step copy w i).1.state.waitingQueue).Sublist
      (w.state.waitingQueue ++ enqueuedBy w.state i) := by
  by_cases hj : ∃ socket role draw, i = Input.joinLobby socket role draw
  · obtain ⟨socket, role, draw, rfl⟩ := hj
    have hfill : dequeuedBy w.state (Input.joinLobby socket role draw) ++
        (fillSlot w.state socket role).waitingQueue = w.state.waitingQueue := by
      simp only [dequeuedBy, fillSlot]
      split
      · rfl
      · split
        · rename_i head rest hq
          simp [hq]
        · rename_i hq
          simp [hq]
    simp only [step, handleJoinLobby, enqueuedBy]
    cases ht : (fillSlot w.state socket role).lobby.tester with
    | none =>
      rw [pairOrWait_wait copy _ socket draw (Or.inl ht), hfill]
      simp
    | some t =>
      cases hp : (fillSlot w.state socket role).lobby.testedPerson with
      | none =>
        rw [pairOrWait_wait copy _ socket draw (Or.inr hp), hfill]
        simp
      | some p =>
        cases hai : draw.isAI with
        | true =>
          rw [pairOrWait_ai copy _ socket draw t p ht hp hai]
          simp only [if_true]
          rw [← List.append_assoc, hfill]
        | false =>
          rw [pairOrWait_human copy _ socket draw t p ht hp hai]
          simp only [Bool.false_eq_true, if_false, List.append_nil]
          rw [hfill]
  · by_cases hd : ∃ socket, i = Input.disconnect socket
    · obtain ⟨socket, rfl⟩ := hd
      simp only [step, handleDisconnect, dequeuedBy, enqueuedBy, List.nil_append,
        List.append_nil]
      split
      · exact List.eraseIdx_sublist _ _
      · exact List.Sublist.refl _
    · have hf := step_lobby_queue copy w i
        (fun socket role draw heq => hj ⟨socket, role, draw, heq⟩)
        (fun socket heq => hd ⟨socket, heq⟩)
      rw [hf.2]
      cases i with
      | joinLobby socket role draw => exact absurd ⟨socket, role, draw, rfl⟩ hj
      | sendMessage _ _ _ => simp [dequeuedBy, enqueuedBy]
      | makeGuess _ _ _ => simp [dequeuedBy, enqueuedBy]
      | disconnect socket => exact absurd ⟨socket, rfl⟩ hd
      | timerExpires _ => simp [dequeuedBy, enqueuedBy]
      | delayElapsed _ => simp [dequeuedBy, enqueuedBy]
      | generationDone _ _ => simp [dequeuedBy, enqueuedBy]

theorem run_queue_fifo (copy : Copy) (inputs : List Input) :
    ∀ w : World, (dequeues copy w inputs ++ (run copy w inputs).state.waitingQueue).Sublist
      (w.state.waitingQueue ++ enqueues copy w inputs) := by
  induction inputs with
  | nil =>
    intro w
    simp [dequeues, enqueues, run]
  | cons i rest ih =>
    intro w
    simp only [dequeues, enqueues, run]
    have h1 := ih (step copy w i).1
    have h2 := step_queue_fifo copy w i
    have h3 : (dequeuedBy w.state i ++ (dequeues copy (step copy w i).1 rest ++
        (run copy (step copy w i).1 rest).state.waitingQueue)).Sublist
        (dequeuedBy w.state i ++ ((step copy w i).1.state.waitingQueue ++
          enqueues copy (step copy w i).1 rest)) :=
      List.Sublist.append (List.Sublist.refl _) h1
    have h4 : ((dequeuedBy w.state i ++ (step copy w i).1.state.waitingQueue) ++
        enqueues copy (step copy w i).1 rest).Sublist
        ((w.state.waitingQueue ++ enqueuedBy w.state i) ++
          enqueues copy (step copy w i).1 rest) :=
      List.Sublist.append h2 (List.Sublist.refl _)
    simp only [List.append_assoc] at h4 ⊢
    exact List.Sublist.trans h3 h4

/-- C22: along every sequence of events, the participants taken from the head of the
waiting queue, in the order they were taken, followed by the participants still in the
queue, form a subsequence of the earlier queue followed by the pushed participants in the
order they were pushed: participants leave by dequeue in the order in which they were
enqueued, and removals on disconnect only drop entries. -/
theorem queue_is_fifo (copy : Copy) (w : World) (inputs : List Input) :
    (dequeues copy w inputs ++ (run copy w inputs).state.waitingQueue).Sublist
      (w.state.waitingQueue ++ enqueues copy w inputs) ∧
    (w.state.waitingQueue = [] →
      (dequeues copy w inputs).Sublist (enqueues copy w inputs)) := by
  refine ⟨run_queue_fifo copy inputs w, ?_⟩
  intro hq
  have h := run_queue_fifo copy inputs w
  rw [hq, List.nil_append] at h
  exact List.Sublist.trans (List.sublist_append_left _ _) h

/-- Witness for C22: along `queueInputs` socket 2 is pushed twice and dequeued twice. -/
theorem queue_is_fifo_witness :
    (World.init [jake]).state.waitingQueue = [] ∧
    enqueues Copy.controllers (World.init [jake]) queueInputs =
      [Participant.ofSocket 2, Participant.ofSocket 2] ∧
    dequeues Copy.controllers (World.init [jake]) queueInputs =
      [Participant.ofSocket 2, Participant.ofSocket 2] ∧
    (dequeues Copy.controllers (World.init [jake]) queueInputs).Sublist
      (enqueues Copy.controllers (World.init [jake]) queueInputs) :=
  ⟨rfl, by decide, by decide,
    (queue_is_fifo Copy.controllers (World.init [jake]) queueInputs).2 rfl⟩

/-! ## The generation request -/

theorem buildRequest_cons (persona : Persona) (firstMessage : Message)
    (rest : List Message) :
    buildRequest (some persona) (firstMessage :: rest) =
      some
        { contents :=
            { role := "user", text := persona.prompt ++ "\n\n" ++ firstMessage.text } ::
              rest.map (fun msg => { role := turnRole msg, text := msg.text })
          maxOutputTokens := 200 } := by
  simp [buildRequest, turnRole]

/-- C23: for a persona `P` and a non-empty log, the request built by the resumed AI
branch has as many turns as the log has entries; turn 0 has role 'user' and text
`P.prompt`, two newlines, and the text of entry 0; for every `i ≥ 1` turn `i` has the
text of entry `i` and role 'user' if its sender is 'tester' and 'model' otherwise; and
`maxOutputTokens` is 200. -/
theorem request_follows_log (s : State) (k : Pending) (game : Game) (persona : Persona)
    (hobj : s.heap[k.game]? = some game) (hpersona : k.aiPersona = some persona)
    (hlog : game.messages ≠ []) :
    ∃ request, resumeAfterDelay s k = Sum.inl request ∧
      request.maxOutputTokens = 200 ∧
      request.contents.length = game.messages.length ∧
      (∀ m0, game.messages[0]? = some m0 →
        request.contents[0]? =
          some { role := "user", text := persona.prompt ++ "\n\n" ++ m0.text }) ∧
      (∀ i m, 1 ≤ i → game.messages[i]? = some m →
        request.contents[i]? =
          some { role := if m.sender = "tester" then "user" else "model", text := m.text }) := by
  cases hm : game.messages with
  | nil => exact absurd hm hlog
  | cons m0 rest =>
    have hr : resumeAfterDelay s k = Sum.inl
        { contents :=
            { role := "user", text := persona.prompt ++ "\n\n" ++ m0.text } ::
              rest.map (fun msg => { role := turnRole msg, text := msg.text })
          maxOutputTokens := 200 } := by
      simp only [resumeAfterDelay, hobj, hpersona, hm, buildRequest_cons]
    refine ⟨_, hr, rfl, by simp, ?_, ?_⟩
    · intro m hget
      simp only [List.getElem?_cons_zero, Option.some.injEq] at hget
      subst hget
      simp only [List.getElem?_cons_zero]
    · intro i m hi hget
      obtain ⟨j, rfl⟩ : ∃ j, i = j + 1 := ⟨i - 1, by omega⟩
      simp only [List.getElem?_cons_succ] at hget ⊢
      simp only [List.getElem?_map, hget, Option.map_some', turnRole]

/-- Witness for C23: the request built for the tester's "hi" in the AI session. -/
theorem request_follows_log_witness :
    aiAfterHi.heap[pendingHi.game]? = some (aiGame.push "tester" "hi") ∧
    pendingHi.aiPersona = some jake ∧
    (∃ request, resumeAfterDelay aiAfterHi pendingHi = Sum.inl request ∧
      request.maxOutputTokens = 200 ∧
      request.contents.length = (aiGame.push "tester" "hi").messages.length) :=
  ⟨by decide, rfl,
    (request_follows_log aiAfterHi pendingHi (aiGame.push "tester" "hi") jake (by decide) rfl
      (by decide)).imp (fun _ h => ⟨h.1, h.2.1, h.2.2.1⟩)⟩

theorem alternates_turnRole : ∀ l : List Message,
    alternates (l.map turnRole) = cadenced l
  | [] => rfl
  | [m] => by
    by_cases h : m.sender = "tester"
    · simp [alternates, cadenced, turnRole, h]
    · simp [alternates, cadenced, turnRole, h]
  | m1 :: m2 :: rest => by
    have ih := alternates_turnRole rest
    by_cases h1 : m1.sender = "tester" <;> by_cases h2 : m2.sender = "tester" <;>
      simp [alternates, cadenced, turnRole, h1, h2, ih]

/-- C24 (as stated, refuted): in the AI session the tester's "hi" meets a generation
failure and the tester sends "again", or the tester sends "again" while "hi" still awaits
its response; in both reachable worlds the log holds two 'tester' entries in a row and
the request built for "again" has the turns 'user', 'user'. -/
theorem retry_request_does_not_alternate :
    run Copy.controllers (World.init [jake]) retryInputs =
      { state := aiAfterAgain, suspended := [Suspended.sleeping pendingHi] } ∧
    run Copy.controllers (World.init [jake]) overlapInputs =
      { state := aiAfterAgain
        suspended := [Suspended.sleeping pendingHi, Suspended.sleeping pendingHi] } ∧
    (lookupGame aiAfterAgain "5").map (fun x => (x.2.isAI, x.2.messages)) =
      some (true, [{ sender := "tester", text := "hi" }, { sender := "tester", text := "again" }]) ∧
    requestRoles aiAfterAgain pendingHi = some ["user", "user"] ∧
    alternates ["user", "user"] = false := by
  decide

/-- C24 (amended): for a log that begins with a 'tester' entry, the turns of the request
built by the resumed AI branch alternate strictly between 'user' and 'model', starting
and ending with 'user', exactly when the log alternates between 'tester' entries and
entries of other senders and ends with a 'tester' entry. -/
theorem request_alternates_iff_log_cadenced (s : State) (k : Pending) (game : Game)
    (persona : Persona) (m0 : Message) (rest : List Message)
    (hobj : s.heap[k.game]? = some game) (hpersona : k.aiPersona = some persona)
    (hlog : game.messages = m0 :: rest) (hfirst : m0.sender = "tester") :
    ∃ roles, requestRoles s k = some roles ∧ roles.length = game.messages.length ∧
      (alternates roles = true ↔ cadenced game.messages = true) := by
  have hr : requestRoles s k = some ((m0 :: rest).map turnRole) := by
    simp only [requestRoles, resumeAfterDelay, hobj, hpersona, hlog, buildRequest_cons,
      List.map_cons, List.map_map, turnRole, hfirst, if_true]
    rfl
  refine ⟨_, hr, by simp [hlog], ?_⟩
  rw [alternates_turnRole, hlog]

/-- Witness for C24 (amended): the request built for the tester's "hi". -/
theorem request_alternates_iff_log_cadenced_witness :
    aiAfterHi.heap[pendingHi.game]? = some (aiGame.push "tester" "hi") ∧
    (aiGame.push "tester" "hi").messages = [{ sender := "tester", text := "hi" }] ∧
    requestRoles aiAfterHi pendingHi = some ["user"] ∧
    (∃ roles, requestRoles aiAfterHi pendingHi = some roles ∧
      roles.length = (aiGame.push "tester" "hi").messages.length ∧
      (alternates roles = true ↔ cadenced (aiGame.push "tester" "hi").messages = true)) :=
  ⟨by decide, by decide, by decide,
    request_alternates_iff_log_cadenced aiAfterHi pendingHi (aiGame.push "tester" "hi") jake
      { sender := "tester", text := "hi" } [] (by decide) rfl (by decide) rfl⟩

/-! ## Guesses that are neither 'AI' nor 'human' -/

/-- C26: for a registered session and a guess by its tester that is neither 'AI' nor
'human', or is missing, `isCorrect` is false whatever `isAI` is, so it differs from
`(guess == 'AI') == isAI` exactly when `isAI` is false; the tester still receives
`gameEnd` with reason 'guess' and `isCorrect` false, and the session is removed. -/
theorem other_guess_is_never_correct (s : State) (sessionId : String) (ref : GameRef)
    (game : Game) (guess : Option String)
    (hgame : lookupGame s sessionId = some (ref, game))
    (hai : guess ≠ some "AI") (hhuman : guess ≠ some "human") :
    isCorrect (guess.getD "undefined") game.isAI = false ∧
    ((isCorrect (guess.getD "undefined") game.isAI ≠
        ((guess.getD "undefined" == "AI") == game.isAI)) ↔ game.isAI = false) ∧
    (∃ result, (onMakeGuess s game.tester.id sessionId guess).2.head? =
      some (game.tester.socket, Event.gameEnd "guess" (some result) (some false))) ∧
    lookupGame (onMakeGuess s game.tester.id sessionId guess).1 sessionId = none := by
  have h1 : (guess.getD "undefined" == "AI") = false := by
    cases guess with
    | none => decide
    | some g =>
      have : g ≠ "AI" := fun h => hai (by rw [h])
      simpa using this
  have h2 : (guess.getD "undefined" == "human") = false := by
    cases guess with
    | none => decide
    | some g =>
      have : g ≠ "human" := fun h => hhuman (by rw [h])
      simpa using this
  have hc : isCorrect (guess.getD "undefined") game.isAI = false := by
    simp [isCorrect, h1, h2]
  refine ⟨hc, ?_, ?_, ?_⟩
  · rw [hc, h1]
    cases game.isAI <;> simp
  · unfold onMakeGuess
    rw [handleGuess_by_tester s sessionId _ ref game hgame, hc]
    exact ⟨_, rfl⟩
  · unfold onMakeGuess
    rw [handleGuess_by_tester s sessionId _ ref game hgame]
    simp only [lookupGame, lookup_deleteGame]

/-- Witness for C26: the tester of the human session guesses 'robot'. -/
theorem other_guess_is_never_correct_witness :
    lookupGame humanSession "5" = some (0, humanGame) ∧
    isCorrect ((some "robot").getD "undefined") humanGame.isAI = false ∧
    lookupGame (onMakeGuess humanSession humanGame.tester.id "5" (some "robot")).1 "5" = none :=
  ⟨by decide,
    (other_guess_is_never_correct humanSession "5" 0 humanGame (some "robot") (by decide)
      (by decide) (by decide)).1,
    (other_guess_is_never_correct humanSession "5" 0 humanGame (some "robot") (by decide)
      (by decide) (by decide)).2.2.2⟩

end TuringTest
